import Mathlib

/-!
Verification of the LLM-mediation core of the `test_procedure_generation_helper`
repository: the response parser (`workflow_editor/llm/response_parser.py`), the
backend base helpers (`workflow_editor/llm/backend_base.py`), the output
contracts (`workflow_editor/llm/output_contracts.py`) and the per-tab session
context (`workflow_editor/llm/tab_context.py`).

The Python code manipulates dynamically-typed JSON-like values, so the
embedding is built on `PyVal`, a model of the Python values that flow through
this subsystem (`None`, `bool`, `int`, `str`, `list`, `dict`).  Fallible
Python code (attribute errors, type errors raised by the dynamic operations)
is modelled with `Except PyErr`.  `json.dumps` / `json.loads` are modelled by
an executable serializer and parser over the common JSON subset this code
exchanges (no floats, no \u escapes); `hashlib.md5(...).hexdigest()` is
modelled by an abstract hash parameter `hash : String → String`, since the
code only ever compares hash values for equality.
-/

set_option maxRecDepth 4000

/-- Model of a Python value as used in the LLM subsystem. -/
inductive PyVal where
  | none : PyVal
  | bool : Bool → PyVal
  | int : Int → PyVal
  | str : String → PyVal
  | list : List PyVal → PyVal
  | dict : List (String × PyVal) → PyVal
deriving Repr

/-- Errors raised by the modelled Python operations. -/
inductive PyErr where
  | typeError : PyErr
  | attributeError : PyErr
deriving Repr, DecidableEq

namespace PyVal

mutual

def beqVal : PyVal → PyVal → Bool
  | .none, .none => true
  | .bool a, .bool b => a = b
  | .int a, .int b => a = b
  | .str a, .str b => a = b
  | .list a, .list b => beqList a b
  | .dict a, .dict b => beqDict a b
  | _, _ => false
  termination_by structural v => v

def beqList : List PyVal → List PyVal → Bool
  | [], [] => true
  | a :: as, b :: bs => beqVal a b && beqList as bs
  | _, _ => false
  termination_by structural l => l

def beqDict : List (String × PyVal) → List (String × PyVal) → Bool
  | [], [] => true
  | (k, a) :: as, (k', b) :: bs => k = k' && beqVal a b && beqDict as bs
  | _, _ => false
  termination_by structural l => l

end

mutual

theorem beqVal_refl : ∀ v : PyVal, beqVal v v = true
  | .none => rfl
  | .bool a => by simp [beqVal]
  | .int a => by simp [beqVal]
  | .str a => by simp [beqVal]
  | .list a => by simp [beqVal, beqList_refl a]
  | .dict a => by simp [beqVal, beqDict_refl a]

theorem beqList_refl : ∀ l : List PyVal, beqList l l = true
  | [] => rfl
  | a :: as => by simp [beqList, beqVal_refl a, beqList_refl as]

theorem beqDict_refl : ∀ l : List (String × PyVal), beqDict l l = true
  | [] => rfl
  | (k, a) :: as => by simp [beqDict, beqVal_refl a, beqDict_refl as]

end

mutual

theorem beqVal_eq : ∀ a b : PyVal, beqVal a b = true → a = b
  | .none, .none, _ => rfl
  | .bool a, .bool b, h => by simp [beqVal] at h; simp [h]
  | .int a, .int b, h => by simp [beqVal] at h; simp [h]
  | .str a, .str b, h => by simp [beqVal] at h; simp [h]
  | .list a, .list b, h => by
      simp only [beqVal] at h
      simp [beqList_eq a b h]
  | .dict a, .dict b, h => by
      simp only [beqVal] at h
      simp [beqDict_eq a b h]
  | .none, .bool _, h => by simp [beqVal] at h
  | .none, .int _, h => by simp [beqVal] at h
  | .none, .str _, h => by simp [beqVal] at h
  | .none, .list _, h => by simp [beqVal] at h
  | .none, .dict _, h => by simp [beqVal] at h
  | .bool _, .none, h => by simp [beqVal] at h
  | .bool _, .int _, h => by simp [beqVal] at h
  | .bool _, .str _, h => by simp [beqVal] at h
  | .bool _, .list _, h => by simp [beqVal] at h
  | .bool _, .dict _, h => by simp [beqVal] at h
  | .int _, .none, h => by simp [beqVal] at h
  | .int _, .bool _, h => by simp [beqVal] at h
  | .int _, .str _, h => by simp [beqVal] at h
  | .int _, .list _, h => by simp [beqVal] at h
  | .int _, .dict _, h => by simp [beqVal] at h
  | .str _, .none, h => by simp [beqVal] at h
  | .str _, .bool _, h => by simp [beqVal] at h
  | .str _, .int _, h => by simp [beqVal] at h
  | .str _, .list _, h => by simp [beqVal] at h
  | .str _, .dict _, h => by simp [beqVal] at h
  | .list _, .none, h => by simp [beqVal] at h
  | .list _, .bool _, h => by simp [beqVal] at h
  | .list _, .int _, h => by simp [beqVal] at h
  | .list _, .str _, h => by simp [beqVal] at h
  | .list _, .dict _, h => by simp [beqVal] at h
  | .dict _, .none, h => by simp [beqVal] at h
  | .dict _, .bool _, h => by simp [beqVal] at h
  | .dict _, .int _, h => by simp [beqVal] at h
  | .dict _, .str _, h => by simp [beqVal] at h
  | .dict _, .list _, h => by simp [beqVal] at h

theorem beqList_eq : ∀ a b : List PyVal, beqList a b = true → a = b
  | [], [], _ => rfl
  | x :: xs, y :: ys, h => by
      simp only [beqList, Bool.and_eq_true] at h
      simp [beqVal_eq x y h.1, beqList_eq xs ys h.2]
  | [], _ :: _, h => by simp [beqList] at h
  | _ :: _, [], h => by simp [beqList] at h

theorem beqDict_eq : ∀ a b : List (String × PyVal), beqDict a b = true → a = b
  | [], [], _ => rfl
  | (k, x) :: xs, (k', y) :: ys, h => by
      simp only [beqDict, Bool.and_eq_true, decide_eq_true_eq] at h
      simp [h.1.1, beqVal_eq x y h.1.2, beqDict_eq xs ys h.2]
  | [], _ :: _, h => by simp [beqDict] at h
  | _ :: _, [], h => by simp [beqDict] at h

end

instance : DecidableEq PyVal := fun a b =>
  if h : beqVal a b = true then
    isTrue (beqVal_eq a b h)
  else
    isFalse (fun he => h (he ▸ beqVal_refl a))

/-- Python truthiness (`bool(v)`) for the modelled values. -/
def truthy : PyVal → Bool
  | .none => false
  | .bool b => b
  | .int n => n ≠ 0
  | .str s => s ≠ ""
  | .list l => ¬ l.isEmpty
  | .dict d => ¬ d.isEmpty

end PyVal

/-! ### Character and string utilities shared by the models -/

/-- JSON whitespace accepted between tokens by `json.loads`. -/
def jsonWs (c : Char) : Bool := c = ' ' || c = '\t' || c = '\n' || c = '\r'

/-- ASCII whitespace removed by Python `str.strip()`. -/
def pyWs (c : Char) : Bool := jsonWs c || c = '\x0b' || c = '\x0c'

/-- Model of Python `str.strip()` on character lists. -/
def stripChars (l : List Char) : List Char :=
  ((l.dropWhile pyWs).reverse.dropWhile pyWs).reverse

/-- Model of Python `str.strip()`. -/
def pyStrip (s : String) : String := String.mk (stripChars s.data)

/-- Model of Python `str.startswith` (character-list form). -/
def startsWithChars (pat l : List Char) : Bool := pat.isPrefixOf l

/-- Index of the first occurrence of `pat` as a contiguous sublist of `l`. -/
def subIdx (pat : List Char) : List Char → Option Nat
  | [] => if pat.isEmpty then some 0 else Option.none
  | c :: t =>
    if pat.isPrefixOf (c :: t) then some 0
    else (subIdx pat t).map (· + 1)

/-- Whether `pat` occurs as a contiguous sublist of `l` (Python `pat in s`). -/
def containsSub (pat l : List Char) : Bool := (subIdx pat l).isSome

/-! ### Decimal rendering of naturals and integers (for the `json.dumps` model) -/

/-- The ASCII character of a decimal digit. -/
def decDigit (d : Nat) : Char :=
  if d = 0 then '0' else if d = 1 then '1' else if d = 2 then '2'
  else if d = 3 then '3' else if d = 4 then '4' else if d = 5 then '5'
  else if d = 6 then '6' else if d = 7 then '7' else if d = 8 then '8' else '9'

/-- Fuel-indexed decimal rendering helper (the fuel dominates the number). -/
def natToCharsF : Nat → Nat → List Char
  | 0, _ => []
  | f + 1, n =>
    if n < 10 then [decDigit n]
    else natToCharsF f (n / 10) ++ [decDigit (n % 10)]

/-- Decimal rendering of a natural number, most significant digit first. -/
def natToChars (n : Nat) : List Char := natToCharsF (n + 1) n

theorem natToCharsF_eq (n : Nat) : ∀ f, n < f → natToCharsF f n = natToChars n := by
  induction n using Nat.strong_induction_on with
  | _ n ih =>
    intro f hf
    match f, hf with
    | g + 1, hf =>
      rw [natToChars, natToCharsF, natToCharsF]
      by_cases h : n < 10
      · rw [if_pos h, if_pos h]
      · rw [if_neg h, if_neg h]
        have hd : n / 10 < n := Nat.div_lt_self (by omega) (by omega)
        rw [ih (n / 10) hd g (by omega), ih (n / 10) hd n (by omega)]

theorem natToChars_lt (n : Nat) (h : n < 10) : natToChars n = [decDigit n] := by
  rw [natToChars, natToCharsF, if_pos h]

theorem natToChars_ge (n : Nat) (h : ¬ n < 10) :
    natToChars n = natToChars (n / 10) ++ [decDigit (n % 10)] := by
  rw [natToChars, natToCharsF, if_neg h]
  have hd : n / 10 < n := Nat.div_lt_self (by omega) (by omega)
  rw [natToCharsF_eq (n / 10) n hd]

/-- Numeric value of a decimal digit character. -/
def digitVal (c : Char) : Nat := c.toNat - 48

def charsToNatAux (acc : Nat) : List Char → Nat
  | [] => acc
  | c :: t => charsToNatAux (acc * 10 + digitVal c) t

/-- Numeric value of a list of decimal digit characters. -/
def charsToNat (l : List Char) : Nat := charsToNatAux 0 l

theorem charsToNatAux_append (a : Nat) (l1 l2 : List Char) :
    charsToNatAux a (l1 ++ l2) = charsToNatAux (charsToNatAux a l1) l2 := by
  induction l1 generalizing a with
  | nil => rfl
  | cons c t ih => exact ih (a * 10 + digitVal c)

theorem digitVal_decDigit (d : Nat) (h : d < 10) : digitVal (decDigit d) = d := by
  interval_cases d <;> rfl

theorem charsToNat_natToChars (n : Nat) : charsToNat (natToChars n) = n := by
  induction n using Nat.strong_induction_on with
  | _ n ih =>
    by_cases h : n < 10
    · rw [natToChars_lt n h]
      have e1 : charsToNat [decDigit n] = 0 * 10 + digitVal (decDigit n) := rfl
      rw [e1, digitVal_decDigit n h]
      omega
    · rw [natToChars_ge n h]
      rw [charsToNat, charsToNatAux_append]
      have hdiv : n / 10 < n := Nat.div_lt_self (by omega) (by omega)
      have hrec := ih (n / 10) hdiv
      rw [charsToNat] at hrec
      have e2 : ∀ (a : Nat) (c : Char), charsToNatAux a [c] = a * 10 + digitVal c :=
        fun a c => rfl
      rw [e2, hrec, digitVal_decDigit (n % 10) (Nat.mod_lt n (by omega))]
      omega

theorem decDigit_isDigit (d : Nat) (h : d < 10) : (decDigit d).isDigit = true := by
  interval_cases d <;> rfl

theorem natToChars_digits (n : Nat) : ∀ c ∈ natToChars n, c.isDigit = true := by
  induction n using Nat.strong_induction_on with
  | _ n ih =>
    by_cases h : n < 10
    · rw [natToChars_lt n h]
      intro c hc
      simp at hc
      subst hc
      exact decDigit_isDigit n h
    · rw [natToChars_ge n h]
      intro c hc
      rcases List.mem_append.mp hc with h1 | h2
      · exact ih (n / 10) (Nat.div_lt_self (by omega) (by omega)) c h1
      · simp at h2
        subst h2
        exact decDigit_isDigit (n % 10) (Nat.mod_lt n (by omega))

theorem natToChars_ne_nil (n : Nat) : natToChars n ≠ [] := by
  by_cases h : n < 10
  · rw [natToChars_lt n h]; simp
  · rw [natToChars_ge n h]; simp

theorem decDigit_ne_zeroChar (d : Nat) (h0 : d ≠ 0) (h : d < 10) : decDigit d ≠ '0' := by
  interval_cases d <;> simp_all <;> decide

theorem natToChars_head_ne_zero (n : Nat) (hn : n ≠ 0) :
    (natToChars n).head? ≠ some '0' := by
  induction n using Nat.strong_induction_on with
  | _ n ih =>
    by_cases h : n < 10
    · rw [natToChars_lt n h]
      simp [decDigit_ne_zeroChar n hn h]
    · rw [natToChars_ge n h]
      have hne := natToChars_ne_nil (n / 10)
      have hd : n / 10 ≠ 0 := by omega
      have hrec := ih (n / 10) (Nat.div_lt_self (by omega) (by omega)) hd
      cases hh : natToChars (n / 10) with
      | nil => exact absurd hh hne
      | cons a t =>
        rw [hh] at hrec
        simp at hrec ⊢
        exact hrec

/-- Decimal rendering of an integer (as `json.dumps` renders Python ints). -/
def intToChars (n : Int) : List Char :=
  if n < 0 then '-' :: natToChars n.natAbs else natToChars n.toNat

/-! ### Model of `json.dumps` (Python default options: `", "` and `": "`
separators, single-line output, strings escaped). -/

/-- Escaping of one character inside a JSON string literal, as `json.dumps`
renders the ASCII subset used by this code. -/
def escapeChar (c : Char) : List Char :=
  if c = '"' then ['\\', '"']
  else if c = '\\' then ['\\', '\\']
  else if c = '\n' then ['\\', 'n']
  else if c = '\t' then ['\\', 't']
  else if c = '\r' then ['\\', 'r']
  else [c]

def escapeStr : List Char → List Char
  | [] => []
  | c :: t => escapeChar c ++ escapeStr t

mutual

/-- Model of `json.dumps` on a `PyVal`, as a character list. -/
def dumpsVal : PyVal → List Char
  | .none => ['n', 'u', 'l', 'l']
  | .bool true => 't' :: ['r', 'u', 'e']
  | .bool false => ['f', 'a', 'l', 's', 'e']
  | .int n => intToChars n
  | .str s => '"' :: (escapeStr s.data ++ ['"'])
  | .list xs => '[' :: (dumpsElems xs ++ [']'])
  | .dict kvs => '{' :: (dumpsMembers kvs ++ ['}'])
  termination_by structural v => v

def dumpsElems : List PyVal → List Char
  | [] => []
  | [x] => dumpsVal x
  | x :: y :: t => dumpsVal x ++ ',' :: ' ' :: dumpsElems (y :: t)
  termination_by structural l => l

def dumpsMembers : List (String × PyVal) → List Char
  | [] => []
  | [(k, v)] => '"' :: (escapeStr k.data ++ '"' :: ':' :: ' ' :: dumpsVal v)
  | (k, v) :: m :: t =>
    ('"' :: (escapeStr k.data ++ '"' :: ':' :: ' ' :: dumpsVal v)) ++
      ',' :: ' ' :: dumpsMembers (m :: t)
  termination_by structural l => l

end

/-- One serialized `"key": value` member. -/
def dumpsKV (k : String) (v : PyVal) : List Char :=
  '"' :: (escapeStr k.data ++ '"' :: ':' :: ' ' :: dumpsVal v)

theorem dumpsMembers_one (k : String) (v : PyVal) :
    dumpsMembers [(k, v)] = dumpsKV k v := by
  simp [dumpsMembers, dumpsKV]

theorem dumpsMembers_cons (k : String) (v : PyVal) (m : String × PyVal)
    (t : List (String × PyVal)) :
    dumpsMembers ((k, v) :: m :: t) =
      dumpsKV k v ++ ',' :: ' ' :: dumpsMembers (m :: t) := by
  simp [dumpsMembers, dumpsKV]

/-- Model of `json.dumps` producing a `String`. -/
def dumps (v : PyVal) : String := String.mk (dumpsVal v)

/-! ### Model of `json.loads` (executable recursive-descent parser for the
JSON subset exchanged by this code: no floats, no \u escapes). -/

/-- Unescaping of a character after a backslash in a JSON string literal. -/
def unescape (e : Char) : Option Char :=
  if e = '"' then some '"'
  else if e = '\\' then some '\\'
  else if e = '/' then some '/'
  else if e = 'n' then some '\n'
  else if e = 't' then some '\t'
  else if e = 'r' then some '\r'
  else if e = 'b' then some '\x08'
  else if e = 'f' then some '\x0c'
  else Option.none

/-- Parse the body of a JSON string literal (after the opening quote),
returning the decoded characters and the rest after the closing quote.
Raw control characters are rejected, as by `json.loads` in strict mode. -/
def parseStrBody : List Char → Option (List Char × List Char)
  | [] => Option.none
  | c :: t =>
    if c = '"' then some ([], t)
    else if c = '\\' then
      match t with
      | [] => Option.none
      | e :: t2 =>
        match unescape e with
        | some c' => (parseStrBody t2).map (fun p => (c' :: p.1, p.2))
        | Option.none => Option.none
    else if c.toNat < 32 then Option.none
    else (parseStrBody t).map (fun p => (c :: p.1, p.2))

/-- Whether the next character would extend a number into a float form
(rejected by this model, which covers the integer-only subset). -/
def floatHead (l : List Char) : Bool :=
  match l.head? with
  | some c => c = '.' || c = 'e' || c = 'E'
  | Option.none => false

/-- Parse a natural-number token (decimal digits, no leading zero). -/
def parseNatTok (l : List Char) : Option (Nat × List Char) :=
  let ds := l.takeWhile Char.isDigit
  let rest := l.dropWhile Char.isDigit
  if ds.isEmpty then Option.none
  else if ds.head? = some '0' ∧ 1 < ds.length then Option.none
  else if floatHead rest then Option.none
  else some (charsToNat ds, rest)

/-- Python `dict` insertion for a (possibly) repeated key: the first
occurrence keeps its position, a repeated key overrides the value. -/
def insertKeyVal (d : List (String × PyVal)) (k : String) (v : PyVal) :
    List (String × PyVal) :=
  match d with
  | [] => [(k, v)]
  | (k', v') :: t => if k' = k then (k, v) :: t else (k', v') :: insertKeyVal t k v

/-- Collapse duplicate keys the way building a Python `dict` does. -/
def collapseKeys (l : List (String × PyVal)) : List (String × PyVal) :=
  l.foldl (fun d kv => insertKeyVal d kv.1 kv.2) []

mutual

/-- Fuel-indexed JSON value parser (model of `json.loads` innards). -/
def parseV : Nat → List Char → Option (PyVal × List Char)
  | 0, _ => Option.none
  | f + 1, l0 =>
    match l0.dropWhile jsonWs with
    | [] => Option.none
    | c :: t =>
      if c = '{' then
        (if (t.dropWhile jsonWs).head? = some '}' then
          some (.dict [], (t.dropWhile jsonWs).tail)
        else (parseMembers f t).map (fun p => (PyVal.dict (collapseKeys p.1), p.2)))
      else if c = '[' then
        (if (t.dropWhile jsonWs).head? = some ']' then
          some (.list [], (t.dropWhile jsonWs).tail)
        else (parseElems f t).map (fun p => (PyVal.list p.1, p.2)))
      else if c = '"' then
        (parseStrBody t).map (fun p => (PyVal.str (String.mk p.1), p.2))
      else if c = 't' then
        (if startsWithChars ['r', 'u', 'e'] t then some (.bool true, t.drop 3)
         else Option.none)
      else if c = 'f' then
        (if startsWithChars ['a', 'l', 's', 'e'] t then some (.bool false, t.drop 4)
         else Option.none)
      else if c = 'n' then
        (if startsWithChars ['u', 'l', 'l'] t then some (.none, t.drop 3)
         else Option.none)
      else if c = '-' then
        (parseNatTok t).map (fun p => (PyVal.int (-(p.1 : Int)), p.2))
      else
        (parseNatTok (c :: t)).map (fun p => (PyVal.int (p.1 : Int), p.2))
  termination_by structural f => f

/-- Parse one-or-more comma-separated array elements up to `]`. -/
def parseElems : Nat → List Char → Option (List PyVal × List Char)
  | 0, _ => Option.none
  | f + 1, l =>
    (parseV f l).bind (fun p =>
      let r := p.2.dropWhile jsonWs
      if r.head? = some ',' then
        (parseElems f r.tail).map (fun q => (p.1 :: q.1, q.2))
      else if r.head? = some ']' then some ([p.1], r.tail)
      else Option.none)
  termination_by structural f => f

/-- Parse one-or-more `"key": value` members up to `}`. -/
def parseMembers : Nat → List Char → Option (List (String × PyVal) × List Char)
  | 0, _ => Option.none
  | f + 1, l =>
    let l' := l.dropWhile jsonWs
    if l'.head? = some '"' then
      (parseStrBody l'.tail).bind (fun pk =>
        let r := pk.2.dropWhile jsonWs
        if r.head? = some ':' then
          (parseV f r.tail).bind (fun pv =>
            let r2 := pv.2.dropWhile jsonWs
            if r2.head? = some ',' then
              (parseMembers f r2.tail).map
                (fun q => ((String.mk pk.1, pv.1) :: q.1, q.2))
            else if r2.head? = some '}' then
              some ([(String.mk pk.1, pv.1)], r2.tail)
            else Option.none)
        else Option.none)
    else Option.none
  termination_by structural f => f

end

/-- Model of `json.loads`: parse one JSON value, allowing only trailing
whitespace; return `Option.none` instead of raising `JSONDecodeError`. -/
def loads (s : String) : Option PyVal :=
  match parseV (s.data.length + 1) s.data with
  | some p => if (p.2.dropWhile jsonWs).isEmpty then some p.1 else Option.none
  | Option.none => Option.none

/-! ### Well-formedness of values for the serializer round-trip -/

/-- Characters this serializer model handles without \u escapes:
printable ASCII plus the three escaped control characters. -/
def wfChar (c : Char) : Bool :=
  c = '\n' || c = '\t' || c = '\r' || (32 ≤ c.toNat && c.toNat ≤ 126)

/-- Strings the serializer model handles. -/
def wfStr (s : String) : Bool := s.data.all wfChar

/-- Pairwise-distinct dictionary keys. -/
def distinctKeys : List (String × PyVal) → Bool
  | [] => true
  | (k, _) :: t => decide (k ∉ t.map Prod.fst) && distinctKeys t

mutual

def wfVal : PyVal → Bool
  | .none => true
  | .bool _ => true
  | .int _ => true
  | .str s => wfStr s
  | .list xs => wfList xs
  | .dict kvs => distinctKeys kvs && wfMembers kvs
  termination_by structural v => v

def wfList : List PyVal → Bool
  | [] => true
  | x :: t => wfVal x && wfList t
  termination_by structural l => l

def wfMembers : List (String × PyVal) → Bool
  | [] => true
  | (k, v) :: t => wfStr k && wfVal v && wfMembers t
  termination_by structural l => l

end

mutual

def sizeV : PyVal → Nat
  | .none => 1
  | .bool _ => 1
  | .int _ => 1
  | .str _ => 1
  | .list xs => 1 + sizeElems xs
  | .dict kvs => 1 + sizeMembers kvs
  termination_by structural v => v

def sizeElems : List PyVal → Nat
  | [] => 1
  | x :: t => sizeV x + sizeElems t
  termination_by structural l => l

def sizeMembers : List (String × PyVal) → Nat
  | [] => 1
  | (_, v) :: t => sizeV v + sizeMembers t
  termination_by structural l => l

end

theorem sizeV_pos (v : PyVal) : 1 ≤ sizeV v := by
  cases v <;> simp [sizeV] <;> omega

theorem sizeElems_pos (xs : List PyVal) : 1 ≤ sizeElems xs := by
  cases xs with
  | nil => simp [sizeElems]
  | cons x t => simp [sizeElems]; have := sizeV_pos x; omega

theorem sizeMembers_pos (kvs : List (String × PyVal)) : 1 ≤ sizeMembers kvs := by
  cases kvs with
  | nil => simp [sizeMembers]
  | cons kv t =>
    obtain ⟨k, v⟩ := kv
    simp [sizeMembers]
    have := sizeV_pos v
    omega

/-! ### List scanning helper lemmas -/

theorem takeWhile_append_of_all {α} (p : α → Bool) (l1 l2 : List α)
    (h1 : ∀ a ∈ l1, p a = true)
    (h2 : ∀ a, l2.head? = some a → p a = false) :
    (l1 ++ l2).takeWhile p = l1 := by
  induction l1 with
  | nil =>
    simp only [List.nil_append]
    cases l2 with
    | nil => rfl
    | cons b t => simp [List.takeWhile, h2 b rfl]
  | cons a t ih =>
    simp only [List.cons_append, List.takeWhile]
    rw [h1 a (by simp)]
    simp [ih (fun x hx => h1 x (by simp [hx]))]

theorem dropWhile_append_of_all {α} (p : α → Bool) (l1 l2 : List α)
    (h1 : ∀ a ∈ l1, p a = true)
    (h2 : ∀ a, l2.head? = some a → p a = false) :
    (l1 ++ l2).dropWhile p = l2 := by
  induction l1 with
  | nil =>
    simp only [List.nil_append]
    cases l2 with
    | nil => rfl
    | cons b t => simp [List.dropWhile, h2 b rfl]
  | cons a t ih =>
    simp only [List.cons_append, List.dropWhile]
    rw [h1 a (by simp)]
    simp [ih (fun x hx => h1 x (by simp [hx]))]

theorem char_ne_of_toNat_ne {c d : Char} (h : c.toNat ≠ d.toNat) : c ≠ d :=
  fun he => h (he ▸ rfl)

theorem isDigit_toNat {c : Char} (h : c.isDigit = true) :
    48 ≤ c.toNat ∧ c.toNat ≤ 57 := by
  simp only [Char.isDigit, Bool.and_eq_true, decide_eq_true_eq] at h
  obtain ⟨h1, h2⟩ := h
  constructor
  · exact h1
  · exact h2

theorem jsonWs_false_of_ge48 {c : Char} (h1 : 48 ≤ c.toNat) : jsonWs c = false := by
  have hsp : c ≠ ' ' :=
    char_ne_of_toNat_ne (by rw [show (' ' : Char).toNat = 32 from rfl]; omega)
  have hta : c ≠ '\t' :=
    char_ne_of_toNat_ne (by rw [show ('\t' : Char).toNat = 9 from rfl]; omega)
  have hnl : c ≠ '\n' :=
    char_ne_of_toNat_ne (by rw [show ('\n' : Char).toNat = 10 from rfl]; omega)
  have hcr : c ≠ '\r' :=
    char_ne_of_toNat_ne (by rw [show ('\r' : Char).toNat = 13 from rfl]; omega)
  simp [jsonWs, hsp, hta, hnl, hcr]

theorem digit_ne_specials {c : Char} (h : c.isDigit = true) :
    c ≠ '{' ∧ c ≠ '[' ∧ c ≠ '"' ∧ c ≠ 't' ∧ c ≠ 'f' ∧ c ≠ 'n' ∧ c ≠ '-' := by
  obtain ⟨h1, h2⟩ := isDigit_toNat h
  refine ⟨?_, ?_, ?_, ?_, ?_, ?_, ?_⟩
  · exact char_ne_of_toNat_ne (by rw [show ('{' : Char).toNat = 123 from rfl]; omega)
  · exact char_ne_of_toNat_ne (by rw [show ('[' : Char).toNat = 91 from rfl]; omega)
  · exact char_ne_of_toNat_ne (by rw [show ('"' : Char).toNat = 34 from rfl]; omega)
  · exact char_ne_of_toNat_ne (by rw [show ('t' : Char).toNat = 116 from rfl]; omega)
  · exact char_ne_of_toNat_ne (by rw [show ('f' : Char).toNat = 102 from rfl]; omega)
  · exact char_ne_of_toNat_ne (by rw [show ('n' : Char).toNat = 110 from rfl]; omega)
  · exact char_ne_of_toNat_ne (by rw [show ('-' : Char).toNat = 45 from rfl]; omega)

theorem parseV_digit_head (f : Nat) (c : Char) (t : List Char)
    (hd : c.isDigit = true) :
    parseV (f + 1) (c :: t) =
      (parseNatTok (c :: t)).map (fun p => (PyVal.int (p.1 : Int), p.2)) := by
  obtain ⟨n1, n2, n3, n4, n5, n6, n7⟩ := digit_ne_specials hd
  have hws : jsonWs c = false := jsonWs_false_of_ge48 (isDigit_toNat hd).1
  simp only [parseV, List.dropWhile, hws]
  simp [n1, n2, n3, n4, n5, n6, n7]

/-- Guard: the characters after a serialized value must not extend a number. -/
def intSafe (l : List Char) : Bool :=
  match l.head? with
  | some c => !(c.isDigit || c = '.' || c = 'e' || c = 'E')
  | Option.none => true

theorem parseNatTok_append (n : Nat) (rest : List Char)
    (hs : intSafe rest = true) :
    parseNatTok (natToChars n ++ rest) = some (n, rest) := by
  have hall := natToChars_digits n
  have hhead : ∀ a, rest.head? = some a → a.isDigit = false := by
    intro a ha
    cases rest with
    | nil => simp at ha
    | cons b t =>
      simp at ha
      subst ha
      simp [intSafe] at hs
      obtain ⟨⟨⟨hd, _⟩, _⟩, _⟩ := hs
      exact hd
  have hfloat : floatHead rest = false := by
    cases rest with
    | nil => rfl
    | cons b t =>
      simp [intSafe] at hs
      obtain ⟨⟨⟨_, hdot⟩, he⟩, hE⟩ := hs
      simp [floatHead, hdot, he, hE]
  rw [parseNatTok]
  simp only [takeWhile_append_of_all _ _ _ hall hhead,
    dropWhile_append_of_all _ _ _ hall hhead]
  rw [if_neg (by simp [natToChars_ne_nil n])]
  rw [if_neg ?hzero]
  case hzero =>
    by_cases hn : n = 0
    · subst hn
      rw [natToChars_lt 0 (by omega)]
      intro hcon
      simp [decDigit] at hcon
    · intro hcon
      exact natToChars_head_ne_zero n hn hcon.1
  rw [if_neg (by simp [hfloat])]
  rw [charsToNat_natToChars]

theorem string_mk_data (s : String) : String.mk s.data = s := rfl

theorem parseStrBody_escape (l : List Char) (hw : l.all wfChar = true)
    (rest : List Char) :
    parseStrBody (escapeStr l ++ '"' :: rest) = some (l, rest) := by
  induction l with
  | nil =>
    simp only [escapeStr, List.nil_append]
    rw [parseStrBody.eq_def]
    simp
  | cons c t ih =>
    simp only [List.all_cons, Bool.and_eq_true] at hw
    obtain ⟨hwc, hwt⟩ := hw
    by_cases h1 : c = '"'
    · subst h1
      simp only [escapeStr, escapeChar]
      norm_num
      rw [parseStrBody.eq_def]
      simp [unescape, ih hwt]
    · by_cases h2 : c = '\\'
      · subst h2
        simp only [escapeStr, escapeChar]
        norm_num
        rw [parseStrBody.eq_def]
        simp [unescape, ih hwt]
      · by_cases h3 : c = '\n'
        · subst h3
          simp only [escapeStr, escapeChar]
          norm_num
          rw [parseStrBody.eq_def]
          simp [unescape, ih hwt]
        · by_cases h4 : c = '\t'
          · subst h4
            simp only [escapeStr, escapeChar]
            norm_num
            rw [parseStrBody.eq_def]
            simp [unescape, ih hwt]
          · by_cases h5 : c = '\r'
            · subst h5
              simp only [escapeStr, escapeChar]
              norm_num
              rw [parseStrBody.eq_def]
              simp [unescape, ih hwt]
            · have hge : 32 ≤ c.toNat := by
                simp [wfChar, h3, h4, h5] at hwc
                exact hwc.1
              have hesc : escapeChar c = [c] := by
                simp [escapeChar, h1, h2, h3, h4, h5]
              rw [escapeStr, hesc]
              simp only [List.cons_append, List.nil_append]
              rw [parseStrBody.eq_def]
              simp only []
              rw [if_neg h1, if_neg h2, if_neg (by omega)]
              simp [ih hwt]

/-- The serializer output of any value starts with a non-whitespace,
non-closing character. -/
theorem dumpsVal_head (v : PyVal) :
    ∃ c t, dumpsVal v = c :: t ∧ jsonWs c = false ∧ c ≠ ']' ∧ c ≠ '}' := by
  cases v with
  | none => exact ⟨'n', ['u', 'l', 'l'], by decide, by decide, by decide, by decide⟩
  | bool b =>
    cases b with
    | true => exact ⟨'t', ['r', 'u', 'e'], by decide, by decide, by decide, by decide⟩
    | false =>
      exact ⟨'f', ['a', 'l', 's', 'e'], by decide, by decide, by decide, by decide⟩
  | int n =>
    rw [show dumpsVal (.int n) = intToChars n by simp [dumpsVal], intToChars]
    by_cases hn : n < 0
    · rw [if_pos hn]
      exact ⟨'-', natToChars n.natAbs, rfl, by decide, by decide, by decide⟩
    · rw [if_neg hn]
      cases hh : natToChars n.toNat with
      | nil => exact absurd hh (natToChars_ne_nil _)
      | cons c t =>
        have hc : c.isDigit = true := natToChars_digits n.toNat c (by rw [hh]; simp)
        obtain ⟨b1, b2⟩ := isDigit_toNat hc
        exact ⟨c, t, rfl, jsonWs_false_of_ge48 b1,
          char_ne_of_toNat_ne (by rw [show (']' : Char).toNat = 93 from rfl]; omega),
          char_ne_of_toNat_ne (by rw [show ('}' : Char).toNat = 125 from rfl]; omega)⟩
  | str s =>
    exact ⟨'"', escapeStr s.data ++ ['"'], by simp [dumpsVal], by decide, by decide,
      by decide⟩
  | list xs =>
    exact ⟨'[', dumpsElems xs ++ [']'], by simp [dumpsVal], by decide, by decide,
      by decide⟩
  | dict kvs =>
    exact ⟨'{', dumpsMembers kvs ++ ['}'], by simp [dumpsVal], by decide, by decide,
      by decide⟩

theorem dumpsElems_head (x : PyVal) (t : List PyVal) :
    ∃ c t0, dumpsElems (x :: t) = c :: t0 ∧ jsonWs c = false ∧ c ≠ ']' ∧ c ≠ '}' := by
  obtain ⟨c, t0, he, h1, h2, h3⟩ := dumpsVal_head x
  cases t with
  | nil => exact ⟨c, t0, by simp [dumpsElems, he], h1, h2, h3⟩
  | cons y t2 =>
    exact ⟨c, t0 ++ ',' :: ' ' :: dumpsElems (y :: t2),
      by simp [dumpsElems, he], h1, h2, h3⟩

theorem insertKeyVal_of_not_mem (d : List (String × PyVal)) (k : String) (v : PyVal)
    (h : k ∉ d.map Prod.fst) : insertKeyVal d k v = d ++ [(k, v)] := by
  induction d with
  | nil => rfl
  | cons kv t ih =>
    obtain ⟨k', v'⟩ := kv
    simp only [List.map_cons, List.mem_cons, not_or] at h
    rw [insertKeyVal]
    rw [if_neg (fun he => h.1 he.symm)]
    rw [ih h.2]
    simp

theorem collapseKeys_aux (l : List (String × PyVal)) :
    ∀ acc : List (String × PyVal),
    (∀ kv ∈ l, kv.1 ∉ acc.map Prod.fst) → distinctKeys l = true →
    l.foldl (fun d kv => insertKeyVal d kv.1 kv.2) acc = acc ++ l := by
  induction l with
  | nil => intro acc _ _; simp
  | cons kv t ih =>
    intro acc hdisj hdist
    obtain ⟨k, v⟩ := kv
    simp only [distinctKeys, Bool.and_eq_true, decide_eq_true_eq] at hdist
    simp only [List.foldl_cons]
    rw [insertKeyVal_of_not_mem acc k v (hdisj ⟨k, v⟩ (by simp))]
    rw [ih (acc ++ [(k, v)]) ?_ hdist.2]
    · simp
    · intro kv' h'
      simp only [List.map_append, List.mem_append, not_or]
      constructor
      · exact hdisj kv' (by simp [h'])
      · simp only [List.map_cons, List.map_nil, List.mem_singleton]
        intro he
        exact hdist.1 (he ▸ List.mem_map_of_mem Prod.fst h')

theorem collapseKeys_eq_self (l : List (String × PyVal))
    (h : distinctKeys l = true) : collapseKeys l = l := by
  rw [collapseKeys, collapseKeys_aux l [] (by simp) h]
  simp

theorem parseV_space (f : Nat) (l : List Char) :
    parseV f (' ' :: l) = parseV f l := by
  cases f with
  | zero => rfl
  | succ g =>
    simp only [parseV, List.dropWhile_cons]
    norm_num [jsonWs]

theorem parseMembers_space (f : Nat) (l : List Char) :
    parseMembers f (' ' :: l) = parseMembers f l := by
  cases f with
  | zero => rfl
  | succ g =>
    simp only [parseMembers, List.dropWhile_cons]
    norm_num [jsonWs]

theorem parseElems_space (f : Nat) (l : List Char) :
    parseElems f (' ' :: l) = parseElems f l := by
  cases f with
  | zero => rfl
  | succ g =>
    simp only [parseElems, parseV_space]

theorem parseV_bracket (f : Nat) (t : List Char)
    (h : ∀ a, (t.dropWhile jsonWs).head? = some a → a ≠ ']') :
    parseV (f + 1) ('[' :: t) =
      (parseElems f t).map (fun p => (PyVal.list p.1, p.2)) := by
  have h0 : parseV (f + 1) ('[' :: t) =
      (if (t.dropWhile jsonWs).head? = some ']' then
        some (.list [], (t.dropWhile jsonWs).tail)
      else (parseElems f t).map (fun p => (PyVal.list p.1, p.2))) := by
    rw [parseV.eq_def]
    simp [List.dropWhile, jsonWs]
  rw [h0, if_neg (fun hcon => h ']' hcon rfl)]

theorem parseV_brace (f : Nat) (t : List Char)
    (h : ∀ a, (t.dropWhile jsonWs).head? = some a → a ≠ '}') :
    parseV (f + 1) ('{' :: t) =
      (parseMembers f t).map (fun p => (PyVal.dict (collapseKeys p.1), p.2)) := by
  have h0 : parseV (f + 1) ('{' :: t) =
      (if (t.dropWhile jsonWs).head? = some '}' then
        some (.dict [], (t.dropWhile jsonWs).tail)
      else (parseMembers f t).map (fun p => (PyVal.dict (collapseKeys p.1), p.2))) := by
    rw [parseV.eq_def]
    simp [List.dropWhile, jsonWs]
  rw [h0, if_neg (fun hcon => h '}' hcon rfl)]

theorem parseV_dash (f : Nat) (t : List Char) :
    parseV (f + 1) ('-' :: t) =
      (parseNatTok t).map (fun p => (PyVal.int (-(p.1 : Int)), p.2)) := by
  rw [parseV.eq_def]
  simp [List.dropWhile, jsonWs]

theorem parseV_quote (f : Nat) (t : List Char) :
    parseV (f + 1) ('"' :: t) =
      (parseStrBody t).map (fun p => (PyVal.str (String.mk p.1), p.2)) := by
  rw [parseV.eq_def]
  simp [List.dropWhile, jsonWs]

theorem parseElems_cons_step (g : Nat) (x : PyVal) (X : List Char)
    (hres : parseV g (dumpsVal x ++ X) = some (x, X)) :
    parseElems (g + 1) (dumpsVal x ++ X) =
      (if (X.dropWhile jsonWs).head? = some ',' then
        (parseElems g (X.dropWhile jsonWs).tail).map (fun q => (x :: q.1, q.2))
      else if (X.dropWhile jsonWs).head? = some ']' then
        some ([x], (X.dropWhile jsonWs).tail)
      else Option.none) := by
  have hstep : parseElems (g + 1) (dumpsVal x ++ X) =
      (parseV g (dumpsVal x ++ X)).bind (fun p =>
        if (p.2.dropWhile jsonWs).head? = some ',' then
          (parseElems g (p.2.dropWhile jsonWs).tail).map (fun q => (p.1 :: q.1, q.2))
        else if (p.2.dropWhile jsonWs).head? = some ']' then
          some ([p.1], (p.2.dropWhile jsonWs).tail)
        else Option.none) := by
    rw [parseElems.eq_def]
  rw [hstep, hres]
  rfl

theorem parseMembers_kv_step (g : Nat) (k : String) (v : PyVal) (X : List Char)
    (hwk : wfStr k = true)
    (hres : parseV g (dumpsVal v ++ X) = some (v, X)) :
    parseMembers (g + 1) (dumpsKV k v ++ X) =
      (if (X.dropWhile jsonWs).head? = some ',' then
        (parseMembers g (X.dropWhile jsonWs).tail).map (fun q => ((k, v) :: q.1, q.2))
      else if (X.dropWhile jsonWs).head? = some '}' then
        some ([(k, v)], (X.dropWhile jsonWs).tail)
      else Option.none) := by
  have hassoc : dumpsKV k v ++ X =
      '"' :: (escapeStr k.data ++ '"' :: ':' :: ' ' :: (dumpsVal v ++ X)) := by
    rw [dumpsKV]
    simp
  rw [hassoc]
  have hstep : parseMembers (g + 1)
      ('"' :: (escapeStr k.data ++ '"' :: ':' :: ' ' :: (dumpsVal v ++ X))) =
      (parseStrBody (escapeStr k.data ++ '"' :: ':' :: ' ' :: (dumpsVal v ++ X))).bind
        (fun pk =>
          if (pk.2.dropWhile jsonWs).head? = some ':' then
            (parseV g (pk.2.dropWhile jsonWs).tail).bind (fun pv =>
              if (pv.2.dropWhile jsonWs).head? = some ',' then
                (parseMembers g (pv.2.dropWhile jsonWs).tail).map
                  (fun q => ((String.mk pk.1, pv.1) :: q.1, q.2))
              else if (pv.2.dropWhile jsonWs).head? = some '}' then
                some ([(String.mk pk.1, pv.1)], (pv.2.dropWhile jsonWs).tail)
              else Option.none)
          else Option.none) := by
    rw [parseMembers.eq_def]
    simp [List.dropWhile, jsonWs]
  rw [hstep, parseStrBody_escape k.data hwk]
  simp only [Option.some_bind]
  have hd1 : ((':' :: ' ' :: (dumpsVal v ++ X)).dropWhile jsonWs) =
      ':' :: ' ' :: (dumpsVal v ++ X) := rfl
  rw [hd1,
    if_pos (show (':' :: ' ' :: (dumpsVal v ++ X)).head? = some ':' from rfl)]
  have hd2 : (':' :: ' ' :: (dumpsVal v ++ X)).tail = ' ' :: (dumpsVal v ++ X) := rfl
  rw [hd2, parseV_space, hres]
  simp only [Option.some_bind, string_mk_data]

mutual

theorem parseV_dumps : ∀ (v : PyVal) (f : Nat) (rest : List Char),
    wfVal v = true → sizeV v ≤ f → intSafe rest = true →
    parseV f (dumpsVal v ++ rest) = some (v, rest)
  | v, 0, rest, _, hf, _ => by
      exact absurd hf (by have := sizeV_pos v; omega)
  | .none, f + 1, rest, _, _, _ => by
      rw [show dumpsVal PyVal.none ++ rest = 'n' :: 'u' :: 'l' :: 'l' :: rest from rfl]
      rw [parseV.eq_def]
      simp [List.dropWhile, jsonWs, startsWithChars, List.isPrefixOf]
  | .bool true, f + 1, rest, _, _, _ => by
      rw [show dumpsVal (PyVal.bool true) ++ rest =
        't' :: 'r' :: 'u' :: 'e' :: rest from rfl]
      rw [parseV.eq_def]
      simp [List.dropWhile, jsonWs, startsWithChars, List.isPrefixOf]
  | .bool false, f + 1, rest, _, _, _ => by
      rw [show dumpsVal (PyVal.bool false) ++ rest =
        'f' :: 'a' :: 'l' :: 's' :: 'e' :: rest from rfl]
      rw [parseV.eq_def]
      simp [List.dropWhile, jsonWs, startsWithChars, List.isPrefixOf]
  | .int n, f + 1, rest, _, _, hs => by
      rw [show dumpsVal (.int n) = intToChars n from rfl, intToChars]
      by_cases hn : n < 0
      · rw [if_pos hn, List.cons_append, parseV_dash, parseNatTok_append _ _ hs]
        have hval : -((n.natAbs : Nat) : Int) = n := by omega
        show some (PyVal.int (-((n.natAbs : Nat) : Int)), rest) =
          some (PyVal.int n, rest)
        rw [hval]
      · rw [if_neg hn]
        obtain ⟨c, t, hh⟩ : ∃ c t, natToChars n.toNat = c :: t := by
          cases hcc : natToChars n.toNat with
          | nil => exact absurd hcc (natToChars_ne_nil _)
          | cons c t => exact ⟨c, t, rfl⟩
        have hc : c.isDigit = true := natToChars_digits n.toNat c (by rw [hh]; simp)
        rw [hh, List.cons_append, parseV_digit_head f c _ hc,
          show c :: (t ++ rest) = (c :: t) ++ rest by simp, ← hh,
          parseNatTok_append _ _ hs]
        have hval : ((n.toNat : Nat) : Int) = n := by omega
        show some (PyVal.int ((n.toNat : Nat) : Int), rest) = some (PyVal.int n, rest)
        rw [hval]
  | .str s, f + 1, rest, hw, _, _ => by
      rw [show dumpsVal (.str s) = '"' :: (escapeStr s.data ++ ['"']) from rfl]
      rw [List.cons_append]
      rw [show (escapeStr s.data ++ ['"']) ++ rest =
        escapeStr s.data ++ '"' :: rest by simp]
      rw [parseV_quote, parseStrBody_escape s.data (by simpa [wfVal, wfStr] using hw)]
      simp [string_mk_data]
  | .list [], f + 1, rest, _, _, _ => by
      rw [show dumpsVal (.list []) ++ rest = '[' :: ']' :: rest from rfl]
      rw [parseV.eq_def]
      simp [List.dropWhile, jsonWs]
  | .list (x :: xs), f + 1, rest, hw, hf, _ => by
      obtain ⟨c0, t0, he, hws, hne1, _⟩ := dumpsElems_head x xs
      rw [show dumpsVal (.list (x :: xs)) =
        '[' :: (dumpsElems (x :: xs) ++ [']']) from rfl]
      rw [List.cons_append]
      rw [show (dumpsElems (x :: xs) ++ [']']) ++ rest =
        dumpsElems (x :: xs) ++ ']' :: rest by simp]
      rw [parseV_bracket f _ ?hhd]
      case hhd =>
        intro a ha
        rw [he, List.cons_append, List.dropWhile_cons_of_neg (by simp [hws])] at ha
        simp only [List.head?_cons, Option.some.injEq] at ha
        subst ha
        exact hne1
      have hw' : wfList (x :: xs) = true := by simpa [wfVal] using hw
      have hsz : sizeElems (x :: xs) ≤ f := by
        have hv : sizeV (.list (x :: xs)) = 1 + sizeElems (x :: xs) := rfl
        omega
      rw [parseElems_dumps (x :: xs) f rest (by simp) hw' hsz]
      rfl
  | .dict [], f + 1, rest, _, _, _ => by
      rw [show dumpsVal (.dict []) ++ rest = '{' :: '}' :: rest from rfl]
      rw [parseV.eq_def]
      simp [List.dropWhile, jsonWs]
  | .dict (kv :: kvs), f + 1, rest, hw, hf, _ => by
      obtain ⟨k, v⟩ := kv
      rw [show dumpsVal (.dict ((k, v) :: kvs)) =
        '{' :: (dumpsMembers ((k, v) :: kvs) ++ ['}']) from rfl]
      rw [List.cons_append]
      rw [show (dumpsMembers ((k, v) :: kvs) ++ ['}']) ++ rest =
        dumpsMembers ((k, v) :: kvs) ++ '}' :: rest by simp]
      rw [parseV_brace f _ ?hhd]
      case hhd =>
        intro a ha
        have hh : ∃ t0, dumpsMembers ((k, v) :: kvs) = '"' :: t0 := by
          cases kvs with
          | nil => exact ⟨_, by rw [dumpsMembers_one, dumpsKV]⟩
          | cons m t => exact ⟨_, by rw [dumpsMembers_cons, dumpsKV, List.cons_append]⟩
        obtain ⟨t0, hh⟩ := hh
        rw [hh, List.cons_append,
          List.dropWhile_cons_of_neg (by decide)] at ha
        simp only [List.head?_cons, Option.some.injEq] at ha
        subst ha
        decide
      have hand : (distinctKeys ((k, v) :: kvs) && wfMembers ((k, v) :: kvs)) = true := by
        have hv : wfVal (.dict ((k, v) :: kvs)) =
          (distinctKeys ((k, v) :: kvs) && wfMembers ((k, v) :: kvs)) := rfl
        rw [← hv]
        exact hw
      rw [Bool.and_eq_true] at hand
      have hwm : wfMembers ((k, v) :: kvs) = true := hand.2
      have hdk : distinctKeys ((k, v) :: kvs) = true := hand.1
      have hsz : sizeMembers ((k, v) :: kvs) ≤ f := by
        have hv : sizeV (.dict ((k, v) :: kvs)) = 1 + sizeMembers ((k, v) :: kvs) := rfl
        omega
      rw [parseMembers_dumps ((k, v) :: kvs) f rest (by simp) hwm hsz]
      simp [collapseKeys_eq_self _ hdk]

theorem parseElems_dumps : ∀ (xs : List PyVal) (f : Nat) (rest : List Char),
    xs ≠ [] → wfList xs = true → sizeElems xs ≤ f →
    parseElems f (dumpsElems xs ++ ']' :: rest) = some (xs, rest)
  | [], _, _, hne, _, _ => absurd rfl hne
  | [x], 0, rest, _, _, hf => by
      have h0 : sizeElems [x] = sizeV x + sizeElems ([] : List PyVal) := rfl
      exact absurd hf (by have := sizeV_pos x; rw [h0]; simp only [sizeElems]; omega)
  | [x], g + 1, rest, _, hw, hf => by
      have hwx : wfVal x = true := by simpa [wfList] using hw
      have hszx : sizeV x ≤ g := by
        have h0 : sizeElems [x] = sizeV x + sizeElems ([] : List PyVal) := rfl
        rw [h0] at hf
        simp only [sizeElems] at hf
        omega
      rw [show dumpsElems [x] = dumpsVal x from rfl]
      rw [parseElems_cons_step g x (']' :: rest)
        (parseV_dumps x g (']' :: rest) hwx hszx rfl)]
      simp [List.dropWhile, jsonWs]
  | x :: y :: t, 0, rest, _, _, hf => by
      have h0 : sizeElems (x :: y :: t) = sizeV x + sizeElems (y :: t) := rfl
      exact absurd hf (by
        have h1 := sizeV_pos x
        have h2 := sizeElems_pos (y :: t)
        rw [h0]
        omega)
  | x :: y :: t, g + 1, rest, _, hw, hf => by
      have hwpair : (wfVal x && wfList (y :: t)) = true := by
        have hv : wfList (x :: y :: t) = (wfVal x && wfList (y :: t)) := rfl
        rw [← hv]
        exact hw
      rw [Bool.and_eq_true] at hwpair
      obtain ⟨hwx, hwyt⟩ := hwpair
      have h0 : sizeElems (x :: y :: t) = sizeV x + sizeElems (y :: t) := rfl
      rw [h0] at hf
      have hszx : sizeV x ≤ g := by
        have h2 := sizeElems_pos (y :: t)
        omega
      have hszyt : sizeElems (y :: t) ≤ g := by
        have h1 := sizeV_pos x
        omega
      rw [show dumpsElems (x :: y :: t) =
        dumpsVal x ++ ',' :: ' ' :: dumpsElems (y :: t) from rfl]
      rw [show (dumpsVal x ++ ',' :: ' ' :: dumpsElems (y :: t)) ++ ']' :: rest =
        dumpsVal x ++ (',' :: ' ' :: (dumpsElems (y :: t) ++ ']' :: rest)) by simp]
      rw [parseElems_cons_step g x (',' :: ' ' :: (dumpsElems (y :: t) ++ ']' :: rest))
        (parseV_dumps x g (',' :: ' ' :: (dumpsElems (y :: t) ++ ']' :: rest))
          hwx hszx rfl)]
      have hred : ((',' :: ' ' :: (dumpsElems (y :: t) ++ ']' :: rest)).dropWhile
          jsonWs) = ',' :: ' ' :: (dumpsElems (y :: t) ++ ']' :: rest) := rfl
      rw [hred, if_pos (show (',' :: ' ' :: (dumpsElems (y :: t) ++ ']' :: rest)).head? =
        some ',' from rfl)]
      have htl : (',' :: ' ' :: (dumpsElems (y :: t) ++ ']' :: rest)).tail =
          ' ' :: (dumpsElems (y :: t) ++ ']' :: rest) := rfl
      rw [htl, parseElems_space,
        parseElems_dumps (y :: t) g rest (by simp) hwyt hszyt]
      rfl

theorem parseMembers_dumps : ∀ (kvs : List (String × PyVal)) (f : Nat)
    (rest : List Char),
    kvs ≠ [] → wfMembers kvs = true → sizeMembers kvs ≤ f →
    parseMembers f (dumpsMembers kvs ++ '}' :: rest) = some (kvs, rest)
  | [], _, _, hne, _, _ => absurd rfl hne
  | [(k, v)], 0, rest, _, _, hf => by
      have h0 : sizeMembers [(k, v)] =
        sizeV v + sizeMembers ([] : List (String × PyVal)) := rfl
      exact absurd hf (by
        have := sizeV_pos v
        rw [h0]
        simp only [sizeMembers]
        omega)
  | [(k, v)], g + 1, rest, _, hw, hf => by
      have hw3 : (wfStr k && wfVal v && wfMembers ([] : List (String × PyVal))) = true := by
        have hv : wfMembers [(k, v)] =
          (wfStr k && wfVal v && wfMembers ([] : List (String × PyVal))) := rfl
        rw [← hv]
        exact hw
      rw [Bool.and_eq_true, Bool.and_eq_true] at hw3
      have hwk : wfStr k = true := hw3.1.1
      have hwv : wfVal v = true := hw3.1.2
      have hszv : sizeV v ≤ g := by
        have h0 : sizeMembers [(k, v)] =
          sizeV v + sizeMembers ([] : List (String × PyVal)) := rfl
        rw [h0] at hf
        simp only [sizeMembers] at hf
        omega
      rw [dumpsMembers_one]
      rw [parseMembers_kv_step g k v ('}' :: rest) hwk
        (parseV_dumps v g ('}' :: rest) hwv hszv rfl)]
      simp [List.dropWhile, jsonWs]
  | (k, v) :: m :: t, 0, rest, _, _, hf => by
      have h0 : sizeMembers ((k, v) :: m :: t) = sizeV v + sizeMembers (m :: t) := rfl
      exact absurd hf (by
        have h1 := sizeV_pos v
        have h2 := sizeMembers_pos (m :: t)
        rw [h0]
        omega)
  | (k, v) :: m :: t, g + 1, rest, _, hw, hf => by
      have hw3 : (wfStr k && wfVal v && wfMembers (m :: t)) = true := by
        have hv : wfMembers ((k, v) :: m :: t) =
          (wfStr k && wfVal v && wfMembers (m :: t)) := rfl
        rw [← hv]
        exact hw
      rw [Bool.and_eq_true, Bool.and_eq_true] at hw3
      have hwk : wfStr k = true := hw3.1.1
      have hwv : wfVal v = true := hw3.1.2
      have hwmt : wfMembers (m :: t) = true := hw3.2
      have h0 : sizeMembers ((k, v) :: m :: t) = sizeV v + sizeMembers (m :: t) := rfl
      rw [h0] at hf
      have hszv : sizeV v ≤ g := by
        have h2 := sizeMembers_pos (m :: t)
        omega
      have hszt : sizeMembers (m :: t) ≤ g := by
        have h1 := sizeV_pos v
        omega
      rw [dumpsMembers_cons]
      rw [show (dumpsKV k v ++ ',' :: ' ' :: dumpsMembers (m :: t)) ++ '}' :: rest =
        dumpsKV k v ++ (',' :: ' ' :: (dumpsMembers (m :: t) ++ '}' :: rest)) by simp]
      rw [parseMembers_kv_step g k v
        (',' :: ' ' :: (dumpsMembers (m :: t) ++ '}' :: rest)) hwk
        (parseV_dumps v g (',' :: ' ' :: (dumpsMembers (m :: t) ++ '}' :: rest))
          hwv hszv rfl)]
      have hred : ((',' :: ' ' :: (dumpsMembers (m :: t) ++ '}' :: rest)).dropWhile
          jsonWs) = ',' :: ' ' :: (dumpsMembers (m :: t) ++ '}' :: rest) := rfl
      rw [hred, if_pos (show (',' :: ' ' :: (dumpsMembers (m :: t) ++ '}' :: rest)).head? =
        some ',' from rfl)]
      have htl : (',' :: ' ' :: (dumpsMembers (m :: t) ++ '}' :: rest)).tail =
          ' ' :: (dumpsMembers (m :: t) ++ '}' :: rest) := rfl
      rw [htl, parseMembers_space,
        parseMembers_dumps (m :: t) g rest (by simp) hwmt hszt]
      rfl

end

mutual

theorem sizeV_le_dumps : ∀ v : PyVal, sizeV v ≤ (dumpsVal v).length
  | .none => by decide
  | .bool true => by decide
  | .bool false => by decide
  | .int n => by
      have h1 : (1 : Nat) ≤ (intToChars n).length := by
        rw [intToChars]
        by_cases hn : n < 0
        · rw [if_pos hn]
          simp
        · rw [if_neg hn]
          have := natToChars_ne_nil n.toNat
          cases hh : natToChars n.toNat with
          | nil => exact absurd hh this
          | cons c t => simp [hh]
      have h2 : sizeV (.int n) = 1 := rfl
      have h3 : dumpsVal (.int n) = intToChars n := rfl
      rw [h2, h3]
      exact h1
  | .str s => by
      have h2 : sizeV (.str s) = 1 := rfl
      have h3 : dumpsVal (.str s) = '"' :: (escapeStr s.data ++ ['"']) := rfl
      rw [h2, h3]
      simp
  | .list xs => by
      have h2 : sizeV (.list xs) = 1 + sizeElems xs := rfl
      have h3 : dumpsVal (.list xs) = '[' :: (dumpsElems xs ++ [']']) := rfl
      have := sizeElems_le_dumps xs
      rw [h2, h3]
      simp
      omega
  | .dict kvs => by
      have h2 : sizeV (.dict kvs) = 1 + sizeMembers kvs := rfl
      have h3 : dumpsVal (.dict kvs) = '{' :: (dumpsMembers kvs ++ ['}']) := rfl
      have := sizeMembers_le_dumps kvs
      rw [h2, h3]
      simp
      omega

theorem sizeElems_le_dumps : ∀ xs : List PyVal, sizeElems xs ≤ (dumpsElems xs).length + 1
  | [] => by decide
  | [x] => by
      have h2 : sizeElems [x] = sizeV x + sizeElems ([] : List PyVal) := rfl
      have h3 : dumpsElems [x] = dumpsVal x := rfl
      have := sizeV_le_dumps x
      rw [h2, h3]
      simp only [sizeElems]
      omega
  | x :: y :: t => by
      have h2 : sizeElems (x :: y :: t) = sizeV x + sizeElems (y :: t) := rfl
      have h3 : dumpsElems (x :: y :: t) =
        dumpsVal x ++ ',' :: ' ' :: dumpsElems (y :: t) := rfl
      have ha := sizeV_le_dumps x
      have hb := sizeElems_le_dumps (y :: t)
      rw [h2, h3]
      simp
      omega

theorem sizeMembers_le_dumps : ∀ kvs : List (String × PyVal),
    sizeMembers kvs ≤ (dumpsMembers kvs).length + 1
  | [] => by decide
  | [(k, v)] => by
      have h2 : sizeMembers [(k, v)] =
        sizeV v + sizeMembers ([] : List (String × PyVal)) := rfl
      have h3 : dumpsMembers [(k, v)] = dumpsKV k v := dumpsMembers_one k v
      have ha := sizeV_le_dumps v
      rw [h2, h3, dumpsKV]
      simp only [sizeMembers]
      simp
      omega
  | (k, v) :: m :: t => by
      have h2 : sizeMembers ((k, v) :: m :: t) = sizeV v + sizeMembers (m :: t) := rfl
      have h3 : dumpsMembers ((k, v) :: m :: t) =
        dumpsKV k v ++ ',' :: ' ' :: dumpsMembers (m :: t) := dumpsMembers_cons k v m t
      have ha := sizeV_le_dumps v
      have hb := sizeMembers_le_dumps (m :: t)
      rw [h2, h3, dumpsKV]
      simp
      omega

end

/-- Serializer/parser round-trip: `json.loads (json.dumps v)` recovers `v`
for well-formed values. -/
theorem loads_dumps (v : PyVal) (h : wfVal v = true) : loads (dumps v) = some v := by
  have hlen : sizeV v ≤ (dumpsVal v).length + 1 := by
    have := sizeV_le_dumps v
    omega
  have hmain := parseV_dumps v ((dumpsVal v).length + 1) [] h hlen rfl
  rw [List.append_nil] at hmain
  rw [loads]
  have hdata : (dumps v).data = dumpsVal v := rfl
  rw [hdata, hmain]
  rfl

/-! ### Dynamic-Python operation models used by the parser pipeline -/

/-- `v.get(k, default)` on a value that should be a dict; raises
`AttributeError` otherwise (as `str`/`list`/`int` have no `.get`). -/
def pyDictGet (v : PyVal) (k : String) (dflt : PyVal) : Except PyErr PyVal :=
  match v with
  | .dict d => .ok ((List.lookup k d).getD dflt)
  | _ => .error .attributeError

/-- Python `for x in v`: lists iterate elements, strings iterate characters,
dicts iterate keys; other values raise `TypeError`. -/
def pyIter (v : PyVal) : Except PyErr (List PyVal)  :=
  match v with
  | .list l => .ok l
  | .str s => .ok (s.data.map (fun c => PyVal.str (String.mk [c])))
  | .dict d => .ok (d.map (fun kv => PyVal.str kv.1))
  | _ => .error .typeError

/-- Python `needle in v`: key membership for dicts, substring test for
strings, element membership for lists; `TypeError` otherwise. -/
def pyIn (needle : String) (v : PyVal) : Except PyErr Bool :=
  match v with
  | .dict d => .ok (decide (needle ∈ d.map Prod.fst))
  | .str s => .ok (containsSub needle.data s.data)
  | .list l => .ok (decide (PyVal.str needle ∈ l))
  | _ => .error .typeError

/-- `v.startswith(p)`: raises `AttributeError` unless `v` is a string. -/
def pyStartsWithE (v : PyVal) (p : String) : Except PyErr Bool :=
  match v with
  | .str s => .ok (startsWithChars p.data s.data)
  | _ => .error .attributeError

/-- Python `str(v)` for the values this code passes to `str`; container
reprs are approximated by their JSON rendering (not exercised by theorems). -/
def pyToStr : PyVal → String
  | .str s => s
  | .int n =>
    if n < 0 then String.mk ('-' :: natToChars n.natAbs)
    else String.mk (natToChars n.toNat)
  | .bool true => "True"
  | .bool false => "False"
  | .none => "None"
  | v => dumps v

/-- Python `sep.join(parts)`: `TypeError` when an element is not a string. -/
def pyJoin (sep : String) : List PyVal → Except PyErr String
  | [] => .ok ""
  | [x] =>
    match x with
    | .str s => .ok s
    | _ => .error .typeError
  | x :: y :: t =>
    match x with
    | .str s => (pyJoin sep (y :: t)).map (fun r => s ++ sep ++ r)
    | _ => .error .typeError

/-! ### Model of `backend_base.py`: tasks, proposals, responses, requests -/

/-- `LLMTask` enum from `backend_base.py`. -/
inductive LLMTask where
  | derive_json_from_code
  | generate_code_from_json
  | review_json
  | review_code_vs_json
  | render_text_from_json
  | review_text_procedure
  | derive_json_from_text
  | ad_hoc_chat
  | review_code
  | review_text_vs_json
deriving DecidableEq, Repr

/-- The string value of each `LLMTask` member. -/
def LLMTask.value : LLMTask → String
  | .derive_json_from_code => "derive_json_from_code"
  | .generate_code_from_json => "generate_code_from_json"
  | .review_json => "review_json"
  | .review_code_vs_json => "review_code_vs_json"
  | .render_text_from_json => "render_text_from_json"
  | .review_text_procedure => "review_text_procedure"
  | .derive_json_from_text => "derive_json_from_text"
  | .ad_hoc_chat => "ad_hoc_chat"
  | .review_code => "review_code"
  | .review_text_vs_json => "review_text_vs_json"

/-- `LLMTask(value)` lookup: `Option.none` models the `ValueError` that the
parser catches for unknown task strings. -/
def taskFromString (s : String) : Option LLMTask :=
  if s = "derive_json_from_code" then some .derive_json_from_code
  else if s = "generate_code_from_json" then some .generate_code_from_json
  else if s = "review_json" then some .review_json
  else if s = "review_code_vs_json" then some .review_code_vs_json
  else if s = "render_text_from_json" then some .render_text_from_json
  else if s = "review_text_procedure" then some .review_text_procedure
  else if s = "derive_json_from_text" then some .derive_json_from_text
  else if s = "ad_hoc_chat" then some .ad_hoc_chat
  else if s = "review_code" then some .review_code
  else if s = "review_text_vs_json" then some .review_text_vs_json
  else Option.none

/-- `LLMProposal` dataclass: `mode` and `content` hold whatever the JSON
contained, so both are dynamic values. -/
structure LLMProposal where
  mode : PyVal
  content : PyVal
deriving DecidableEq, Repr

/-- `LLMProposal.is_valid` from `backend_base.py`. -/
def LLMProposal.is_valid (p : LLMProposal) : Bool :=
  if p.mode = PyVal.none ∨ p.content = PyVal.none then false
  else
    match p.content with
    | .str s => decide (0 < (pyStrip s).length)
    | .dict _ => true
    | _ => false

/-- `ValidationIssue` dataclass. -/
structure ValidationIssue where
  severity : PyVal
  code : PyVal
  message : PyVal
  location : PyVal
  suggested_fix : PyVal
deriving DecidableEq, Repr

/-- `TextPatch` dataclass. -/
structure TextPatch where
  line_start : PyVal
  line_end : PyVal
  original : PyVal
  proposed : PyVal
  reason : PyVal
deriving DecidableEq, Repr

/-- `LLMResponse` dataclass with its field defaults. -/
structure LLMResponse where
  raw_response : String := ""
  success : Bool := false
  error_message : String := ""
  context_exceeded : Bool := false
  task : Option LLMTask := Option.none
  strict_mode : PyVal := PyVal.bool false
  prompt_tokens : Int := 0
  completion_tokens : Int := 0
  total_tokens : Int := 0
  assistant_message : PyVal := PyVal.str ""
  validation_status : PyVal := PyVal.str ""
  issues : List ValidationIssue := []
  assumptions : PyVal := PyVal.list []
  procedure_json : Option LLMProposal := Option.none
  test_code : Option LLMProposal := Option.none
  procedure_text : Option LLMProposal := Option.none
  text_patches : List TextPatch := []
  session_delta : PyVal := PyVal.dict []
deriving DecidableEq, Repr

/-- `LLMRequest` dataclass with its field defaults. -/
structure LLMRequest where
  task : LLMTask
  strict_mode : Bool := true
  procedure_json : Option String := Option.none
  test_code : Option String := Option.none
  procedure_text : Option String := Option.none
  include_json : Bool := true
  include_code : Bool := true
  include_text : Bool := true
  rules_content : Option String := Option.none
  include_rules : Bool := true
  session_summary : String := ""
  user_message : String := ""
  output_contract : Option String := Option.none
deriving DecidableEq, Repr

/-! ### Model of `response_parser.py` -/

namespace ResponseParser

/-- The loop of `_extract_json` over an OpenCode `parts` array: find a
thinking/text part whose content is itself a JSON object.  A thinking part
with a non-string `content` raises `AttributeError` (`content.startswith`). -/
def scanParts : List PyVal → Except PyErr (Option String)
  | [] => .ok Option.none
  | part :: rest =>
    match part with
    | .dict _ => do
      let t ← pyDictGet part "type" PyVal.none
      if t = PyVal.str "thinking" then do
        let content ← pyDictGet part "content" (PyVal.str "")
        let sw ← pyStartsWithE content "\x7b"
        if sw then
          match content with
          | .str cs => if (loads cs).isSome then pure (some cs) else scanParts rest
          | _ => scanParts rest
        else scanParts rest
      else if t = PyVal.str "text" then do
        let text ← pyDictGet part "text" (PyVal.str "")
        match text with
        | .dict td => pure (some (dumps (.dict td)))
        | .str ts =>
          if startsWithChars ['\x7b'] (pyStrip ts).data then
            if (loads ts).isSome then pure (some ts) else scanParts rest
          else scanParts rest
        | _ => scanParts rest
      else scanParts rest
    | _ => scanParts rest

/-- Brace-depth scan of `_extract_json`: walk the characters keeping a brace
counter, returning the prefix at which the counter first returns to zero. -/
def braceScanAux : List Char → Int → List Char → Option (List Char)
  | [], _, _ => Option.none
  | c :: t, depth, acc =>
    if c = '\x7b' then braceScanAux t (depth + 1) (c :: acc)
    else if c = '\x7d' then
      if depth - 1 = 0 then some ((c :: acc).reverse)
      else braceScanAux t (depth - 1) (c :: acc)
    else braceScanAux t depth (c :: acc)

def braceScan (l : List Char) : Option (List Char) := braceScanAux l 0 []

/-- Model of the backtracking match of `\s*\n(.*?)\n```` after a fence
opener: choose the longest whitespace run ending in a newline, then the
shortest body followed by a closing fence. -/
def fenceTry (m : List Char) : Nat → Option (List Char)
  | 0 => Option.none
  | k + 1 =>
    if m[k]? = some '\n' then
      match subIdx ['\n', '`', '`', '`'] (m.drop (k + 1)) with
      | some j => some ((m.drop (k + 1)).take j)
      | Option.none => fenceTry m k
    else fenceTry m k

def fenceMatchAt (m : List Char) : Option (List Char) :=
  fenceTry m (m.takeWhile pyWs).length

/-- Model of `re.search` for the fence patterns: scan start positions left
to right for an occurrence of the opener whose tail admits a match. -/
def searchFence (opener : List Char) : List Char → Option (List Char)
  | [] => Option.none
  | c :: t =>
    if opener.isPrefixOf (c :: t) then
      match fenceMatchAt ((c :: t).drop opener.length) with
      | some cand => some cand
      | Option.none => searchFence opener t
    else searchFence opener t

/-- Index of the last occurrence of a character. -/
def lastIdx (c : Char) (l : List Char) : Option Nat :=
  (subIdx [c] l.reverse).map (fun r => l.length - 1 - r)

/-- Model of the greedy `\{[\s\S]*\}` search: first `{` through last `}`. -/
def searchBraces (l : List Char) : Option (List Char) :=
  match subIdx ['\x7b'] l with
  | some i =>
    let tail := l.drop i
    match lastIdx '\x7d' tail with
    | some j => if 1 ≤ j then some (tail.take (j + 1)) else Option.none
    | Option.none => Option.none
  | Option.none => Option.none

/-- One code-fence pattern step: candidate must also load as JSON. -/
def tryPattern (cand : Option (List Char)) : Option String :=
  cand.bind (fun c => if (loads (String.mk c)).isSome then some (String.mk c)
    else Option.none)

/-- The ordered regex fallbacks of `_extract_json` (patterns list). -/
def patternScan (raw : String) : Option String :=
  match tryPattern (searchFence ['`', '`', '`', 'j', 's', 'o', 'n'] raw.data) with
  | some c => some c
  | Option.none =>
    match tryPattern (searchFence ['`', '`', '`'] raw.data) with
    | some c => some c
    | Option.none => tryPattern (searchBraces raw.data)

/-- `ResponseParser._extract_json`. -/
def extractJson (raw : String) : Except PyErr (Option String) := do
  let env ← (match loads (pyStrip raw) with
    | some (.dict d) =>
      if "parts" ∈ d.map Prod.fst then do
        let parts := (List.lookup "parts" d).getD (.list [])
        let items ← pyIter parts
        let r ← scanParts items
        pure (some r)
      else pure Option.none
    | _ => (pure Option.none : Except PyErr (Option (Option String))))
  match env with
  | some r => pure r
  | Option.none =>
    let rawStripped := pyStrip raw
    match (if startsWithChars ['\x7b'] rawStripped.data then
        braceScan rawStripped.data
      else Option.none) with
    | some pre => pure (some (String.mk pre))
    | Option.none => pure (patternScan raw)

/-- The `text_parts` collection loop of `_extract_text_message`. -/
def collectTexts : List PyVal → List PyVal
  | [] => []
  | p :: rest =>
    match p with
    | .dict d =>
      if (List.lookup "type" d).getD PyVal.none = PyVal.str "text" then
        match (List.lookup "text" d).getD (PyVal.str "") with
        | .dict td =>
          if "assistant_message" ∈ td.map Prod.fst then
            PyVal.str (pyToStr ((List.lookup "assistant_message" td).getD PyVal.none))
              :: collectTexts rest
          else collectTexts rest
        | tc =>
          if PyVal.truthy tc then tc :: collectTexts rest else collectTexts rest
      else collectTexts rest
    | _ => collectTexts rest

/-- Model of `re.sub` with the non-greedy triple-fence pattern replaced by
the empty string (fuel-indexed; each rewrite consumes at least six chars). -/
def removeFencesF : Nat → List Char → List Char
  | 0, l => l
  | f + 1, l =>
    match subIdx ['`', '`', '`'] l with
    | Option.none => l
    | some i =>
      match subIdx ['`', '`', '`'] (l.drop (i + 3)) with
      | Option.none => l
      | some j =>
        l.take i ++ removeFencesF f ((l.drop (i + 3)).drop (j + 3))

def removeFences (l : List Char) : List Char := removeFencesF (l.length + 1) l

/-- `ResponseParser._extract_text_message`. -/
def extractTextMessage (raw : String) : Except PyErr String := do
  let viaParts ← (match loads (pyStrip raw) with
    | some (.dict d) =>
      if "parts" ∈ d.map Prod.fst then do
        let parts := (List.lookup "parts" d).getD (.list [])
        let items ← pyIter parts
        let tps := collectTexts items
        if tps.isEmpty then pure Option.none
        else do
          let j ← pyJoin "\n\n" tps
          pure (some j)
      else pure Option.none
    | _ => (pure Option.none : Except PyErr (Option String)))
  match viaParts with
  | some j => pure j
  | Option.none =>
    let text := stripChars (removeFences raw.data)
    if text.isEmpty then pure "Received response but could not parse it."
    else pure (String.mk (text.take 500))

/-- `ResponseParser._parse_proposal`. -/
def parseProposal (pd : PyVal) : Except PyErr (Option LLMProposal) := do
  if ¬ PyVal.truthy pd then pure Option.none
  else do
    let mode ← pyDictGet pd "mode" PyVal.none
    let content ← pyDictGet pd "content" PyVal.none
    if mode = PyVal.none ∨ content = PyVal.none then pure Option.none
    else pure (some ⟨mode, content⟩)

/-- One issue record of the validation block. -/
def parseIssue (d : PyVal) : Except PyErr ValidationIssue := do
  let sev ← pyDictGet d "severity" (PyVal.str "warning")
  let code ← pyDictGet d "code" (PyVal.str "")
  let msg ← pyDictGet d "message" (PyVal.str "")
  let loc ← pyDictGet d "location" (PyVal.str "")
  let fix ← pyDictGet d "suggested_fix" (PyVal.str "")
  pure ⟨sev, code, msg, loc, fix⟩

/-- One text patch record. -/
def parsePatch (d : PyVal) : Except PyErr TextPatch := do
  let ls ← pyDictGet d "line_start" (PyVal.int 0)
  let le ← pyDictGet d "line_end" (PyVal.int 0)
  let og ← pyDictGet d "original" (PyVal.str "")
  let pr ← pyDictGet d "proposed" (PyVal.str "")
  let rs ← pyDictGet d "reason" (PyVal.str "")
  pure ⟨ls, le, og, pr, rs⟩

/-- `ResponseParser._parse_response_data`.  The Python method mutates the
response object field by field and never reads a field it wrote, so it is
modelled as one final record update. -/
def parseResponseData (data : PyVal) (response : LLMResponse) :
    Except PyErr LLMResponse := do
  let am ← pyDictGet data "assistant_message" (PyVal.str "")
  let sm ← pyDictGet data "strict_mode" (PyVal.bool true)
  let taskv ← pyDictGet data "task" (PyVal.str "")
  let task' :=
    if PyVal.truthy taskv then
      match taskv with
      | .str s =>
        match taskFromString s with
        | some t => some t
        | Option.none => response.task
      | _ => response.task
    else response.task
  let validation ← pyDictGet data "validation" (PyVal.dict [])
  let vst ←
    if PyVal.truthy validation then do
      let st ← pyDictGet validation "status" (PyVal.str "")
      let asmp ← pyDictGet validation "assumptions" (PyVal.list [])
      let issuesRaw ← pyDictGet validation "issues" (PyVal.list [])
      let items ← pyIter issuesRaw
      let iss ← items.mapM parseIssue
      pure (st, asmp, iss)
    else pure (response.validation_status, response.assumptions, response.issues)
  let proposals ← pyDictGet data "proposals" (PyVal.dict [])
  let props ←
    if PyVal.truthy proposals then do
      let pjRaw ← pyDictGet proposals "procedure_json" PyVal.none
      let pj ← parseProposal pjRaw
      let tcRaw ← pyDictGet proposals "test_code" PyVal.none
      let tc ← parseProposal tcRaw
      let ptRaw ← pyDictGet proposals "procedure_text" PyVal.none
      let pt ← parseProposal ptRaw
      let patchesRaw ← pyDictGet proposals "text_patches" (PyVal.list [])
      let patchesVal := if PyVal.truthy patchesRaw then patchesRaw else PyVal.list []
      let pitems ← pyIter patchesVal
      let patches ← pitems.mapM parsePatch
      pure (pj, tc, pt, patches)
    else pure (response.procedure_json, response.test_code,
      response.procedure_text, response.text_patches)
  let sd ← pyDictGet data "session_delta" (PyVal.dict [])
  pure { response with
    success := true
    assistant_message := am
    strict_mode := sm
    task := task'
    validation_status := vst.1
    assumptions := vst.2.1
    issues := vst.2.2
    procedure_json := props.1
    test_code := props.2.1
    procedure_text := props.2.2.1
    text_patches := props.2.2.2
    session_delta := sd }

/-- `ResponseParser.parse`.  The `json.JSONDecodeError` message interpolated
into the error string is abstracted to a fixed marker. -/
def parse (raw_response : String) (expected_task : Option LLMTask) :
    Except PyErr LLMResponse := do
  let response : LLMResponse := { raw_response := raw_response }
  let jc ← extractJson raw_response
  match jc with
  | Option.none => do
    let am ← extractTextMessage raw_response
    pure { response with
      success := false
      error_message := "No valid JSON found in response"
      assistant_message := PyVal.str am }
  | some jcs =>
    match loads jcs with
    | Option.none => do
      let am ← extractTextMessage raw_response
      pure { response with
        success := false
        error_message := "Invalid JSON: JSONDecodeError"
        assistant_message := PyVal.str am }
    | some data => parseResponseData data response

end ResponseParser

/-! ### Model of `output_contracts.py` -/

/-- Tab identifiers of the data model ("text_json", "json_code"). -/
inductive TabId where
  | text_json
  | json_code
deriving DecidableEq, Repr

def TabId.value : TabId → String
  | .text_json => "text_json"
  | .json_code => "json_code"

/-- `TEXT_JSON_CONTRACT` prompt text. -/
def TEXT_JSON_CONTRACT : String :=
  "\n## Output Contract for Text-JSON Tab\n\nYou are operating in the TEXT-JSON workflow context. Your responses MUST follow these rules:\n\n**Allowed Proposals:**\n- procedure_text: Textual description of the test procedure\n- procedure_json: Structured JSON representation\n\n**FORBIDDEN Proposals:**\n- test_code: You MUST NOT generate Python test code in this context\n\n**Validation Rules:**\n- You may propose procedure_text OR procedure_json OR both\n- Set proposal.mode to \"create\", \"replace\", or null (no proposal)\n- If you propose test_code, the response will be REJECTED as invalid\n\nThis contract ensures you stay focused on text and JSON artifacts only.\n"

/-- `JSON_CODE_CONTRACT` prompt text. -/
def JSON_CODE_CONTRACT : String :=
  "\n## Output Contract for JSON-Code Tab\n\nYou are operating in the JSON-CODE workflow context. Your responses MUST follow these rules:\n\n**Allowed Proposals:**\n- procedure_json: Structured JSON representation\n- test_code: Python test code implementation\n\n**FORBIDDEN Proposals:**\n- procedure_text: You MUST NOT generate textual procedure descriptions in this context\n\n**Validation Rules:**\n- You may propose procedure_json OR test_code OR both\n- Set proposal.mode to \"create\", \"replace\", or null (no proposal)\n- If you propose procedure_text, the response will be REJECTED as invalid\n\nThis contract ensures you stay focused on JSON and code artifacts only.\n"

/-- `get_contract_for_tab` (restricted to the two valid tab ids of the data
model; the `ValueError` branch for unknown ids is outside the domain). -/
def get_contract_for_tab : TabId → String
  | .text_json => TEXT_JSON_CONTRACT
  | .json_code => JSON_CODE_CONTRACT

/-- `get_allowed_artifacts`. -/
def get_allowed_artifacts : TabId → List String
  | .text_json => ["procedure_text", "procedure_json"]
  | .json_code => ["procedure_json", "test_code"]

/-- `TASK_OUTPUT_CONTRACTS` / `get_task_expected_artifacts`: expected output
artifacts per task (`Option.none` = defer to the tab-level contract). -/
def get_task_expected_artifacts : LLMTask → Option (List String)
  | .derive_json_from_text => some ["procedure_json"]
  | .render_text_from_json => some ["procedure_text"]
  | .review_text_procedure => some ["procedure_text"]
  | .review_json => some ["procedure_json"]
  | .review_text_vs_json => some ["procedure_text", "procedure_json"]
  | .generate_code_from_json => some ["test_code"]
  | .derive_json_from_code => some ["procedure_json"]
  | .review_code => some ["test_code"]
  | .review_code_vs_json => some ["procedure_json", "test_code"]
  | .ad_hoc_chat => Option.none

/-! ### Model of `backend_base.py`: `LLMBackend._extract_token_usage` -/

/-- Python `+` on dynamic values (ints and bools add as numbers, strings and
lists concatenate, anything else raises `TypeError`). -/
def pyAdd (a b : PyVal) : Except PyErr PyVal :=
  match a, b with
  | .int x, .int y => .ok (.int (x + y))
  | .int x, .bool y => .ok (.int (x + (if y then 1 else 0)))
  | .bool x, .int y => .ok (.int ((if x then 1 else 0) + y))
  | .bool x, .bool y => .ok (.int ((if x then 1 else 0) + (if y then 1 else 0)))
  | .str x, .str y => .ok (.str (x ++ y))
  | .list x, .list y => .ok (.list (x ++ y))
  | _, _ => .error .typeError

/-- The `tokens`-shape fallback branch of `_extract_token_usage`. -/
def tokensBranch (response_data : PyVal) : Except PyErr (PyVal × PyVal × PyVal) := do
  let tokens0 ← pyDictGet response_data "tokens" PyVal.none
  let tokens ←
    if ¬ PyVal.truthy tokens0 then do
      let info ← pyDictGet response_data "info" (PyVal.dict [])
      pyDictGet info "tokens" PyVal.none
    else pure tokens0
  if PyVal.truthy tokens then do
    let hasInput ← pyIn "input" tokens
    let hasEither ←
      if hasInput then pure true
      else pyIn "output" tokens
    if hasEither then do
      let pt ← pyDictGet tokens "input" (PyVal.int 0)
      let ct ← pyDictGet tokens "output" (PyVal.int 0)
      let rt ← pyDictGet tokens "reasoning" (PyVal.int 0)
      let s1 ← pyAdd pt ct
      let tt ← pyAdd s1 rt
      pure (pt, ct, tt)
    else pure (PyVal.int 0, PyVal.int 0, PyVal.int 0)
  else pure (PyVal.int 0, PyVal.int 0, PyVal.int 0)

/-- `LLMBackend._extract_token_usage`. -/
def extractTokenUsage (response_data : PyVal) : Except PyErr (PyVal × PyVal × PyVal) := do
  let usage ← pyDictGet response_data "usage" PyVal.none
  let hasPT ←
    if PyVal.truthy usage then pyIn "prompt_tokens" usage
    else pure false
  if hasPT then do
    let pt ← pyDictGet usage "prompt_tokens" (PyVal.int 0)
    let ct ← pyDictGet usage "completion_tokens" (PyVal.int 0)
    let tt ← pyDictGet usage "total_tokens" (PyVal.int 0)
    pure (pt, ct, tt)
  else tokensBranch response_data

/-! ### Model of `tab_context.py` -/

/-- `ChatMessage` dataclass.  The UUID filled into `msg_id` by
`__post_init__` is environment nondeterminism and is modelled as `""`. -/
structure ChatMessage where
  role : String
  content : PyVal
  full_prompt : Option String := Option.none
  full_response : Option String := Option.none
  prompt_tokens : Int := 0
  completion_tokens : Int := 0
  total_tokens : Int := 0
  msg_id : String := ""
deriving DecidableEq, Repr

/-- The mutable per-tab state of `TabContext` that the modelled operations
read and write.  `_artifact_checksums` is a dict whose keys are only ever
the three artifact names, modelled as three optional fields. -/
structure TabState where
  messages : List ChatMessage := []
  cumulative_tokens : Int := 0
  first_interaction : Bool := true
  checksum_text : Option String := Option.none
  checksum_json : Option String := Option.none
  checksum_code : Option String := Option.none
  rules_checksum : Option String := Option.none
  last_json_content : Option String := Option.none
  last_code_content : Option String := Option.none
  last_text_content : Option String := Option.none
  rules_sent : Bool := false
  current_task : Option LLMTask := Option.none
deriving DecidableEq, Repr

/-- The artifact contents currently held by the `ArtifactManager`
(`procedure_text.content` etc.); also the shape of the context dict built
by `_build_conditional_artifact_context`. -/
structure ArtifactContents where
  procedure_text : Option String := Option.none
  procedure_json : Option String := Option.none
  test_code : Option String := Option.none
deriving DecidableEq, Repr

/-- Python truthiness of an optional string (`if content:`). -/
def truthyStrOpt : Option String → Bool
  | some s => s ≠ ""
  | Option.none => false

namespace TabContext

/-- `_artifact_checksums.get(name)`. -/
def getChecksum (st : TabState) (name : String) : Option String :=
  if name = "procedure_text" then st.checksum_text
  else if name = "procedure_json" then st.checksum_json
  else if name = "test_code" then st.checksum_code
  else Option.none

/-- `_artifact_checksums[name] = value`. -/
def setChecksum (st : TabState) (name : String) (v : String) : TabState :=
  if name = "procedure_text" then { st with checksum_text := some v }
  else if name = "procedure_json" then { st with checksum_json := some v }
  else if name = "test_code" then { st with checksum_code := some v }
  else st

/-- `_get_artifact_content`. -/
def getArtifactContent (contents : ArtifactContents) (name : String) :
    Option String :=
  if name = "procedure_text" then contents.procedure_text
  else if name = "procedure_json" then contents.procedure_json
  else if name = "test_code" then contents.test_code
  else Option.none

/-- `is_artifact_modified` (`hash` abstracts `hashlib.md5(..).hexdigest()`). -/
def is_artifact_modified (hash : String → String) (st : TabState)
    (name : String) (content : String) : Bool :=
  getChecksum st name ≠ some (hash content)

/-- `mark_artifact_sent`: store the checksum and clear the
first-interaction flag. -/
def mark_artifact_sent (hash : String → String) (st : TabState)
    (name : String) (content : String) : TabState :=
  { setChecksum st name (hash content) with first_interaction := false }

/-- `should_send_artifact`. -/
def should_send_artifact (hash : String → String) (contents : ArtifactContents)
    (st : TabState) (name : String) (force : Bool) : Bool :=
  if force then true
  else if st.first_interaction then true
  else
    match getArtifactContent contents name with
    | Option.none => false
    | some c => is_artifact_modified hash st name c

/-- `mark_artifact_modified`: drop the stored checksum for one artifact. -/
def mark_artifact_modified (st : TabState) (name : String) : TabState :=
  if name = "procedure_text" then { st with checksum_text := Option.none }
  else if name = "procedure_json" then { st with checksum_json := Option.none }
  else if name = "test_code" then { st with checksum_code := Option.none }
  else st

/-- `_has_rules_changed`. -/
def has_rules_changed (hash : String → String) (st : TabState)
    (current : Option String) : Bool :=
  match current with
  | Option.none => st.rules_checksum ≠ Option.none
  | some c =>
    match st.rules_checksum with
    | Option.none => true
    | some prev => hash c ≠ prev

/-- `_update_rules_checksum`. -/
def update_rules_checksum (hash : String → String) (st : TabState)
    (rc : String) : TabState :=
  { st with rules_checksum := some (hash rc) }

/-- `reset_conversation`. -/
def reset_conversation (st : TabState) : TabState :=
  { st with
    messages := []
    cumulative_tokens := 0
    first_interaction := true
    checksum_text := Option.none
    checksum_json := Option.none
    checksum_code := Option.none
    rules_checksum := Option.none
    last_json_content := Option.none
    last_code_content := Option.none
    last_text_content := Option.none
    rules_sent := false }

/-- The optimization-state part of `reset_backend` / session reset: clears
the last-sent contents and the first-interaction flag but — unlike
`reset_conversation` — keeps the artifact checksums. -/
def reset_backend (st : TabState) : TabState :=
  { st with
    last_json_content := Option.none
    last_code_content := Option.none
    last_text_content := Option.none
    rules_sent := false
    first_interaction := true }

/-- Write one artifact into the context dict being built. -/
def setCtx (ctx : ArtifactContents) (name : String) (c : String) :
    ArtifactContents :=
  if name = "procedure_text" then { ctx with procedure_text := some c }
  else if name = "procedure_json" then { ctx with procedure_json := some c }
  else if name = "test_code" then { ctx with test_code := some c }
  else ctx

/-- One artifact check of `_build_conditional_artifact_context`. -/
def condArtifactStep (hash : String → String) (contents : ArtifactContents)
    (force : Bool) (required : List String) (name : String)
    (acc : ArtifactContents × TabState) : ArtifactContents × TabState :=
  if name ∈ required then
    match getArtifactContent contents name with
    | some c =>
      if c ≠ "" then
        if should_send_artifact hash contents acc.2 name force then
          (setCtx acc.1 name c, mark_artifact_sent hash acc.2 name c)
        else acc
      else acc
    | Option.none => acc
  else acc

/-- `_build_conditional_artifact_context`: the three artifacts are examined
in the fixed source order. -/
def build_conditional_artifact_context (hash : String → String)
    (contents : ArtifactContents) (required : List String) (force : Bool)
    (st : TabState) : ArtifactContents × TabState :=
  condArtifactStep hash contents force required "test_code"
    (condArtifactStep hash contents force required "procedure_json"
      (condArtifactStep hash contents force required "procedure_text" ({}, st)))

/-- `TASK_ARTIFACT_REQUIREMENTS` / `_get_required_artifacts_for_task`. -/
def TASK_ARTIFACT_REQUIREMENTS : LLMTask → Option (List String)
  | .derive_json_from_text => some ["procedure_text"]
  | .render_text_from_json => some ["procedure_json"]
  | .review_text_procedure => some ["procedure_text"]
  | .review_json => some ["procedure_json"]
  | .review_text_vs_json => some ["procedure_text", "procedure_json"]
  | .generate_code_from_json => some ["procedure_json"]
  | .derive_json_from_code => some ["test_code"]
  | .review_code => some ["test_code"]
  | .review_code_vs_json => some ["procedure_json", "test_code"]
  | .ad_hoc_chat => Option.none

def get_required_artifacts_for_task (tab : TabId) (task : LLMTask) :
    List String :=
  match TASK_ARTIFACT_REQUIREMENTS task with
  | some r => r
  | Option.none => get_allowed_artifacts tab

/-- `_update_optimization_state`. -/
def update_optimization_state (hash : String → String) (st : TabState)
    (request : LLMRequest) : TabState :=
  let st := if truthyStrOpt request.procedure_json then
      { st with last_json_content := request.procedure_json }
    else st
  let st := if truthyStrOpt request.test_code then
      { st with last_code_content := request.test_code }
    else st
  let st := if truthyStrOpt request.procedure_text then
      { st with last_text_content := request.procedure_text }
    else st
  match request.rules_content with
  | some rc =>
    if rc ≠ "" then { update_rules_checksum hash st rc with rules_sent := true }
    else st
  | Option.none => st

/-- `_build_request`.  The artifact-manager contents, the concatenated
rules text and the session summary are explicit inputs (they come from
collaborators outside this subsystem). -/
def build_request (hash : String → String) (tab : TabId)
    (contents : ArtifactContents) (rulesContent : Option String)
    (sessionSummary : String) (task : LLMTask) (userMessage : Option String)
    (strictMode : Bool) (force : Bool) (st : TabState) :
    LLMRequest × TabState :=
  let strictMode := if force then false else strictMode
  let st := { st with current_task := some task }
  let rules_changed := has_rules_changed hash st rulesContent
  let rulesPair :=
    if st.first_interaction || force || rules_changed then
      (rulesContent, match rulesContent with
        | some rc => if rc ≠ "" then update_rules_checksum hash st rc else st
        | Option.none => st)
    else (Option.none, st)
  let rules_content := rulesPair.1
  let st := rulesPair.2
  let output_contract := get_contract_for_tab tab
  let required := get_required_artifacts_for_task tab task
  let built := build_conditional_artifact_context hash contents required force st
  let ctx := built.1
  let st := built.2
  let request : LLMRequest := {
    task := task
    strict_mode := strictMode
    user_message := userMessage.getD ""
    procedure_text := ctx.procedure_text
    procedure_json := ctx.procedure_json
    test_code := ctx.test_code
    session_summary := sessionSummary
    rules_content := rules_content
    output_contract := some output_contract }
  let st := update_optimization_state hash st request
  (request, st)

/-- `response.procedure_text and response.procedure_text.mode` truthiness. -/
def hasTruthyMode : Option LLMProposal → Bool
  | some p => PyVal.truthy p.mode
  | Option.none => false

/-- The tab-level violation message built by `_validate_contract`. -/
def tabViolationMsg (tab : TabId) (violations allowed : List String) : String :=
  "Output contract violation: This tab (" ++ tab.value ++
    ") does not allow proposals for: " ++ String.intercalate ", " violations ++
    ". Allowed artifacts: " ++ String.intercalate ", " allowed ++
    ". Please check the Raw Response tab for the full LLM output."

/-- The task-level violation message built by `_validate_contract`. -/
def taskViolationMsg (t : LLMTask) (expected violations : List String) : String :=
  "Task contract violation: The task \x27" ++ t.value ++
    "\x27 should only produce " ++ String.intercalate ", " expected ++
    ", but the LLM proposed: " ++ String.intercalate ", " violations ++
    ". Expected artifacts: " ++ String.intercalate ", " expected ++
    ". This may indicate the LLM misunderstood the task. " ++
    "Please check the Raw Response tab and consider re-running the task."

/-- The violation list for one contract level, in source check order. -/
def violationList (r : LLMResponse) (allowed : List String) : List String :=
  (if hasTruthyMode r.procedure_text && decide ("procedure_text" ∉ allowed)
    then ["procedure_text"] else []) ++
  (if hasTruthyMode r.procedure_json && decide ("procedure_json" ∉ allowed)
    then ["procedure_json"] else []) ++
  (if hasTruthyMode r.test_code && decide ("test_code" ∉ allowed)
    then ["test_code"] else [])

/-- `_validate_contract`: tab-level first, then task-level. -/
def validate_contract (tab : TabId) (current_task : Option LLMTask)
    (r : LLMResponse) : LLMResponse :=
  let allowed := get_allowed_artifacts tab
  let tab_violations := violationList r allowed
  if tab_violations ≠ [] then
    { r with
      success := false
      error_message := tabViolationMsg tab tab_violations allowed }
  else
    match current_task with
    | some t =>
      match get_task_expected_artifacts t with
      | some expected =>
        let task_violations := violationList r expected
        if task_violations ≠ [] then
          { r with
            success := false
            error_message := taskViolationMsg t expected task_violations }
        else r
      | Option.none => r
    | Option.none => r

/-- `send_task`: build the request, record the user message, send through
the backend (an explicit transport function), validate, record the
assistant message and the token total. -/
def send_task (hash : String → String) (tab : TabId)
    (contents : ArtifactContents) (rulesContent : Option String)
    (sessionSummary : String) (backend : LLMRequest → LLMResponse)
    (task : LLMTask) (user_message : Option String) (strict_mode : Bool)
    (st : TabState) : LLMResponse × TabState :=
  let built := build_request hash tab contents rulesContent sessionSummary task
    user_message strict_mode false st
  let request := built.1
  let st := built.2
  let st :=
    if truthyStrOpt user_message then
      { st with messages := st.messages ++
        [{ role := "user", content := PyVal.str (user_message.getD "") }] }
    else st
  let response := backend request
  let response :=
    if response.success then validate_contract tab st.current_task response
    else response
  let st :=
    if response.success && PyVal.truthy response.assistant_message then
      { st with
        messages := st.messages ++
          [{ role := "assistant",
             content := response.assistant_message,
             full_response := some response.raw_response,
             prompt_tokens := response.prompt_tokens,
             completion_tokens := response.completion_tokens,
             total_tokens := response.total_tokens }]
        cumulative_tokens := st.cumulative_tokens + response.total_tokens }
    else st
  (response, st)

end TabContext

/-! ### Schema-conforming reply objects (for the round-trip claims) -/

/-- One issue record of the reply schema. -/
structure ReplyIssue where
  severity : String
  code : String
  message : String
  location : String
  suggested_fix : String
deriving DecidableEq, Repr

/-- One text patch record of the reply schema. -/
structure ReplyPatch where
  line_start : Int
  line_end : Int
  original : String
  proposed : String
  reason : String
deriving DecidableEq, Repr

/-- A reply object conforming to the schema of spec §6: fixed keys, typed
fields, proposal modes either present (string) or `null`. -/
structure ReplyObj where
  task : String
  strict_mode : Bool
  assistant_message : String
  validation_status : String
  issues : List ReplyIssue
  assumptions : List String
  procedure_json : Option (String × List (String × PyVal))
  test_code : Option (String × String)
  procedure_text : Option (String × String)
  text_patches : List ReplyPatch
  session_delta_intent : String
  open_questions : List String
  resolved_questions : List String
  decisions_added : List String
deriving Repr

def issueJson (i : ReplyIssue) : PyVal :=
  .dict [("severity", .str i.severity), ("code", .str i.code),
    ("message", .str i.message), ("location", .str i.location),
    ("suggested_fix", .str i.suggested_fix)]

def patchJson (p : ReplyPatch) : PyVal :=
  .dict [("line_start", .int p.line_start), ("line_end", .int p.line_end),
    ("original", .str p.original), ("proposed", .str p.proposed),
    ("reason", .str p.reason)]

def propJsonJ : Option (String × List (String × PyVal)) → PyVal
  | some mc => .dict [("mode", .str mc.1), ("content", .dict mc.2)]
  | Option.none => .dict [("mode", PyVal.none), ("content", PyVal.none)]

def propJsonS : Option (String × String) → PyVal
  | some mc => .dict [("mode", .str mc.1), ("content", .str mc.2)]
  | Option.none => .dict [("mode", PyVal.none), ("content", PyVal.none)]

/-- The key/value members of the JSON object a schema-conforming reply
serializes to. -/
def replyMembers (r : ReplyObj) : List (String × PyVal) :=
  [
    ("type", .str "llm_turn"),
    ("task", .str r.task),
    ("strict_mode", .bool r.strict_mode),
    ("assistant_message", .str r.assistant_message),
    ("validation", .dict [
      ("status", .str r.validation_status),
      ("issues", .list (r.issues.map issueJson)),
      ("assumptions", .list (r.assumptions.map PyVal.str))]),
    ("proposals", .dict [
      ("procedure_json", propJsonJ r.procedure_json),
      ("test_code", propJsonS r.test_code),
      ("procedure_text", propJsonS r.procedure_text),
      ("text_patches", .list (r.text_patches.map patchJson))]),
    ("session_delta", .dict [
      ("intent", .str r.session_delta_intent),
      ("open_questions", .list (r.open_questions.map PyVal.str)),
      ("resolved_questions", .list (r.resolved_questions.map PyVal.str)),
      ("decisions_added", .list (r.decisions_added.map PyVal.str))])]

/-- The JSON object a schema-conforming reply serializes to. -/
def replyJson (r : ReplyObj) : PyVal := .dict (replyMembers r)

/-- Well-formedness of a reply object: its JSON rendering is serializable. -/
def wfReply (r : ReplyObj) : Prop := wfVal (replyJson r) = true

instance (r : ReplyObj) : Decidable (wfReply r) := by
  rw [wfReply]
  infer_instance

/-- The `LLMResponse` that `_parse_response_data` produces from a
schema-conforming reply object, over an arbitrary base response. -/
def replyParsed (r : ReplyObj) (base : LLMResponse) : LLMResponse :=
  { base with
    success := true
    assistant_message := .str r.assistant_message
    strict_mode := .bool r.strict_mode
    task :=
      if r.task ≠ "" then
        match taskFromString r.task with
        | some t => some t
        | Option.none => base.task
      else base.task
    validation_status := .str r.validation_status
    assumptions := .list (r.assumptions.map PyVal.str)
    issues := r.issues.map (fun i =>
      ⟨.str i.severity, .str i.code, .str i.message, .str i.location,
        .str i.suggested_fix⟩)
    procedure_json := r.procedure_json.map (fun mc => ⟨.str mc.1, .dict mc.2⟩)
    test_code := r.test_code.map (fun mc => ⟨.str mc.1, .str mc.2⟩)
    procedure_text := r.procedure_text.map (fun mc => ⟨.str mc.1, .str mc.2⟩)
    text_patches := r.text_patches.map (fun p =>
      ⟨.int p.line_start, .int p.line_end, .str p.original, .str p.proposed,
        .str p.reason⟩)
    session_delta := .dict [
      ("intent", .str r.session_delta_intent),
      ("open_questions", .list (r.open_questions.map PyVal.str)),
      ("resolved_questions", .list (r.resolved_questions.map PyVal.str)),
      ("decisions_added", .list (r.decisions_added.map PyVal.str))] }

namespace ResponseParser

theorem parseIssue_reply (i : ReplyIssue) :
    parseIssue (issueJson i) = .ok
      ⟨.str i.severity, .str i.code, .str i.message, .str i.location,
        .str i.suggested_fix⟩ := by
  simp [parseIssue, issueJson, pyDictGet, List.lookup, beq_iff_eq]
  rfl

theorem parsePatch_reply (p : ReplyPatch) :
    parsePatch (patchJson p) = .ok
      ⟨.int p.line_start, .int p.line_end, .str p.original, .str p.proposed,
        .str p.reason⟩ := by
  simp [parsePatch, patchJson, pyDictGet, List.lookup, beq_iff_eq]
  rfl

theorem mapMloop_parseIssue (l : List ReplyIssue) :
    ∀ acc : List ValidationIssue,
    List.mapM.loop parseIssue (l.map issueJson) acc = .ok (acc.reverse ++
      l.map (fun i =>
        (⟨.str i.severity, .str i.code, .str i.message, .str i.location,
          .str i.suggested_fix⟩ : ValidationIssue))) := by
  induction l with
  | nil => intro acc; simp [List.mapM.loop]; rfl
  | cons i t ih =>
    intro acc
    simp only [List.map_cons, List.mapM.loop, parseIssue_reply, Bind.bind,
      Except.bind, ih]
    simp

theorem mapMloop_parsePatch (l : List ReplyPatch) :
    ∀ acc : List TextPatch,
    List.mapM.loop parsePatch (l.map patchJson) acc = .ok (acc.reverse ++
      l.map (fun p =>
        (⟨.int p.line_start, .int p.line_end, .str p.original, .str p.proposed,
          .str p.reason⟩ : TextPatch))) := by
  induction l with
  | nil => intro acc; simp [List.mapM.loop]; rfl
  | cons p t ih =>
    intro acc
    simp only [List.map_cons, List.mapM.loop, parsePatch_reply, Bind.bind,
      Except.bind, ih]
    simp

theorem parseProposal_propJsonJ (o : Option (String × List (String × PyVal))) :
    parseProposal (propJsonJ o) = .ok (o.map (fun mc =>
      (⟨.str mc.1, .dict mc.2⟩ : LLMProposal))) := by
  cases o with
  | none => simp [parseProposal, propJsonJ, PyVal.truthy, pyDictGet,
      List.lookup, beq_iff_eq, Bind.bind, Except.bind, pure, Except.pure]
  | some mc =>
    simp [parseProposal, propJsonJ, PyVal.truthy, pyDictGet,
      List.lookup, beq_iff_eq, Bind.bind, Except.bind, pure, Except.pure]

theorem parseProposal_propJsonS (o : Option (String × String)) :
    parseProposal (propJsonS o) = .ok (o.map (fun mc =>
      (⟨.str mc.1, .str mc.2⟩ : LLMProposal))) := by
  cases o with
  | none => simp [parseProposal, propJsonS, PyVal.truthy, pyDictGet,
      List.lookup, beq_iff_eq, Bind.bind, Except.bind, pure, Except.pure]
  | some mc =>
    simp [parseProposal, propJsonS, PyVal.truthy, pyDictGet,
      List.lookup, beq_iff_eq, Bind.bind, Except.bind, pure, Except.pure]

/-- `_parse_response_data` on a schema-conforming reply object. -/
theorem parseRD_reply (r : ReplyObj) (base : LLMResponse) :
    parseResponseData (replyJson r) base = .ok (replyParsed r base) := by
  simp only [parseResponseData, replyJson, replyMembers]
  simp [pyDictGet, List.lookup, beq_iff_eq, Bind.bind, Except.bind, pure,
    Except.pure, PyVal.truthy, pyIter, mapMloop_parseIssue, mapMloop_parsePatch,
    parseProposal_propJsonJ, parseProposal_propJsonS, replyParsed]
  by_cases hp : r.text_patches = []
  · simp [hp, List.mapM.loop]
    rfl
  · simp [hp, mapMloop_parsePatch]

end ResponseParser

/-! ### Character-shape lemmas about serializer output -/

theorem escapeChar_printable (c : Char) (hw : wfChar c = true) :
    ∀ c' ∈ escapeChar c, 32 ≤ c'.toNat ∧ c'.toNat ≤ 126 := by
  intro c' hc'
  by_cases h1 : c = '"'
  · subst h1; simp [escapeChar] at hc'
    rcases hc' with h | h <;> subst h <;> decide
  · by_cases h2 : c = '\\'
    · subst h2; simp [escapeChar] at hc'
      subst hc'
      decide
    · by_cases h3 : c = '\n'
      · subst h3; simp [escapeChar] at hc'
        rcases hc' with h | h <;> subst h <;> decide
      · by_cases h4 : c = '\t'
        · subst h4; simp [escapeChar] at hc'
          rcases hc' with h | h <;> subst h <;> decide
        · by_cases h5 : c = '\r'
          · subst h5; simp [escapeChar] at hc'
            rcases hc' with h | h <;> subst h <;> decide
          · have he : escapeChar c = [c] := by
              simp [escapeChar, h1, h2, h3, h4, h5]
            rw [he] at hc'
            simp at hc'
            subst hc'
            simp [wfChar, h3, h4, h5] at hw
            exact hw

theorem escapeStr_printable (l : List Char) (hw : l.all wfChar = true) :
    ∀ c' ∈ escapeStr l, 32 ≤ c'.toNat ∧ c'.toNat ≤ 126 := by
  induction l with
  | nil => intro c' hc'; simp [escapeStr] at hc'
  | cons c t ih =>
    simp only [List.all_cons, Bool.and_eq_true] at hw
    intro c' hc'
    rw [escapeStr] at hc'
    rcases List.mem_append.mp hc' with h | h
    · exact escapeChar_printable c hw.1 c' h
    · exact ih hw.2 c' h

theorem natToChars_printable (n : Nat) :
    ∀ c ∈ natToChars n, 32 ≤ c.toNat ∧ c.toNat ≤ 126 := by
  intro c hc
  have := isDigit_toNat (natToChars_digits n c hc)
  omega

theorem intToChars_printable (n : Int) :
    ∀ c ∈ intToChars n, 32 ≤ c.toNat ∧ c.toNat ≤ 126 := by
  intro c hc
  rw [intToChars] at hc
  by_cases hn : n < 0
  · rw [if_pos hn] at hc
    rcases List.mem_cons.mp hc with h | h
    · subst h; decide
    · exact natToChars_printable _ c h
  · rw [if_neg hn] at hc
    exact natToChars_printable _ c hc

mutual

theorem dumpsVal_printable : ∀ v : PyVal, wfVal v = true →
    ∀ c ∈ dumpsVal v, 32 ≤ c.toNat ∧ c.toNat ≤ 126
  | .none, _, c, hc => by
      simp [dumpsVal] at hc
      rcases hc with h | h | h <;> subst h <;> decide
  | .bool true, _, c, hc => by
      simp [dumpsVal] at hc
      rcases hc with h | h | h | h <;> subst h <;> decide
  | .bool false, _, c, hc => by
      simp [dumpsVal] at hc
      rcases hc with h | h | h | h | h <;> subst h <;> decide
  | .int n, _, c, hc => by
      rw [show dumpsVal (.int n) = intToChars n from rfl] at hc
      exact intToChars_printable n c hc
  | .str s, hw, c, hc => by
      rw [show dumpsVal (.str s) = '"' :: (escapeStr s.data ++ ['"']) from rfl] at hc
      have hws : s.data.all wfChar = true := by simpa [wfVal, wfStr] using hw
      rcases List.mem_cons.mp hc with h | h
      · subst h; decide
      · rcases List.mem_append.mp h with h2 | h2
        · exact escapeStr_printable s.data hws c h2
        · simp at h2; subst h2; decide
  | .list xs, hw, c, hc => by
      rw [show dumpsVal (.list xs) = '[' :: (dumpsElems xs ++ [']']) from rfl] at hc
      have hwl : wfList xs = true := by simpa [wfVal] using hw
      rcases List.mem_cons.mp hc with h | h
      · subst h; decide
      · rcases List.mem_append.mp h with h2 | h2
        · exact dumpsElems_printable xs hwl c h2
        · simp at h2; subst h2; decide
  | .dict kvs, hw, c, hc => by
      rw [show dumpsVal (.dict kvs) = '\x7b' :: (dumpsMembers kvs ++ ['\x7d'])
        from rfl] at hc
      have hand : (distinctKeys kvs && wfMembers kvs) = true := by
        have hv : wfVal (.dict kvs) = (distinctKeys kvs && wfMembers kvs) := rfl
        rw [← hv]; exact hw
      rw [Bool.and_eq_true] at hand
      rcases List.mem_cons.mp hc with h | h
      · subst h; decide
      · rcases List.mem_append.mp h with h2 | h2
        · exact dumpsMembers_printable kvs hand.2 c h2
        · simp at h2; subst h2; decide

theorem dumpsElems_printable : ∀ xs : List PyVal, wfList xs = true →
    ∀ c ∈ dumpsElems xs, 32 ≤ c.toNat ∧ c.toNat ≤ 126
  | [], _, c, hc => by simp [dumpsElems] at hc
  | [x], hw, c, hc => by
      rw [show dumpsElems [x] = dumpsVal x from rfl] at hc
      have hwx : wfVal x = true := by simpa [wfList] using hw
      exact dumpsVal_printable x hwx c hc
  | x :: y :: t, hw, c, hc => by
      rw [show dumpsElems (x :: y :: t) =
        dumpsVal x ++ ',' :: ' ' :: dumpsElems (y :: t) from rfl] at hc
      have hwpair : (wfVal x && wfList (y :: t)) = true := by
        have hv : wfList (x :: y :: t) = (wfVal x && wfList (y :: t)) := rfl
        rw [← hv]; exact hw
      rw [Bool.and_eq_true] at hwpair
      rcases List.mem_append.mp hc with h | h
      · exact dumpsVal_printable x hwpair.1 c h
      · rcases List.mem_cons.mp h with h2 | h2
        · subst h2; decide
        · rcases List.mem_cons.mp h2 with h3 | h3
          · subst h3; decide
          · exact dumpsElems_printable (y :: t) hwpair.2 c h3

theorem dumpsMembers_printable : ∀ kvs : List (String × PyVal),
    wfMembers kvs = true → ∀ c ∈ dumpsMembers kvs, 32 ≤ c.toNat ∧ c.toNat ≤ 126
  | [], _, c, hc => by simp [dumpsMembers] at hc
  | [(k, v)], hw, c, hc => by
      rw [dumpsMembers_one, dumpsKV] at hc
      have hw3 : (wfStr k && wfVal v &&
          wfMembers ([] : List (String × PyVal))) = true := by
        have hv : wfMembers [(k, v)] = (wfStr k && wfVal v &&
          wfMembers ([] : List (String × PyVal))) := rfl
        rw [← hv]; exact hw
      rw [Bool.and_eq_true, Bool.and_eq_true] at hw3
      rcases List.mem_cons.mp hc with h | h
      · subst h; decide
      · rcases List.mem_append.mp h with h2 | h2
        · exact escapeStr_printable k.data hw3.1.1 c h2
        · rcases List.mem_cons.mp h2 with h3 | h3
          · subst h3; decide
          · rcases List.mem_cons.mp h3 with h4 | h4
            · subst h4; decide
            · rcases List.mem_cons.mp h4 with h5 | h5
              · subst h5; decide
              · exact dumpsVal_printable v hw3.1.2 c h5
  | (k, v) :: m :: t, hw, c, hc => by
      rw [dumpsMembers_cons, dumpsKV] at hc
      have hw3 : (wfStr k && wfVal v && wfMembers (m :: t)) = true := by
        have hv : wfMembers ((k, v) :: m :: t) =
          (wfStr k && wfVal v && wfMembers (m :: t)) := rfl
        rw [← hv]; exact hw
      rw [Bool.and_eq_true, Bool.and_eq_true] at hw3
      rcases List.mem_append.mp hc with h | h
      · rcases List.mem_cons.mp h with h1 | h1
        · subst h1; decide
        · rcases List.mem_append.mp h1 with h2 | h2
          · exact escapeStr_printable k.data hw3.1.1 c h2
          · rcases List.mem_cons.mp h2 with h3 | h3
            · subst h3; decide
            · rcases List.mem_cons.mp h3 with h4 | h4
              · subst h4; decide
              · rcases List.mem_cons.mp h4 with h5 | h5
                · subst h5; decide
                · exact dumpsVal_printable v hw3.1.2 c h5
      · rcases List.mem_cons.mp h with h2 | h2
        · subst h2; decide
        · rcases List.mem_cons.mp h2 with h3 | h3
          · subst h3; decide
          · exact dumpsMembers_printable (m :: t) hw3.2 c h3

end

/-- No raw newline occurs in serializer output of a well-formed value. -/
theorem nl_not_mem_dumps (v : PyVal) (hw : wfVal v = true) :
    '\n' ∉ dumpsVal v := by
  intro hc
  have h := dumpsVal_printable v hw '\n' hc
  rw [show ('\n').toNat = 10 from rfl] at h
  omega

/-- Serializer output is itself a well-formed string. -/
theorem dumps_wfStr (v : PyVal) (hw : wfVal v = true) :
    wfStr (dumps v) = true := by
  rw [wfStr]
  rw [show (dumps v).data = dumpsVal v from rfl]
  rw [List.all_eq_true]
  intro c hc
  have h := dumpsVal_printable v hw c hc
  simp [wfChar]
  omega

/-- `str.strip()` is a no-op when both ends are non-whitespace. -/
theorem stripChars_of_ends (c1 c2 : Char) (m : List Char)
    (h1 : pyWs c1 = false) (h2 : pyWs c2 = false) :
    stripChars (c1 :: (m ++ [c2])) = c1 :: (m ++ [c2]) := by
  rw [stripChars]
  rw [List.dropWhile_cons_of_neg (by simp [h1])]
  rw [show (c1 :: (m ++ [c2])).reverse = c2 :: (m.reverse ++ [c1]) by simp]
  rw [List.dropWhile_cons_of_neg (by simp [h2])]
  simp

/-- Stripping serializer output of a dict value is a no-op. -/
theorem pyStrip_dumps_dict (d : List (String × PyVal)) :
    pyStrip (dumps (PyVal.dict d)) = dumps (PyVal.dict d) := by
  rw [pyStrip]
  rw [show (dumps (PyVal.dict d)).data =
    '\x7b' :: (dumpsMembers d ++ ['\x7d']) from rfl]
  rw [stripChars_of_ends _ _ _ (by decide) (by decide)]
  rfl

theorem parseNatTok_backtick (t : List Char) :
    parseNatTok ('`' :: t) = Option.none := by
  rw [parseNatTok]
  simp [List.takeWhile]

theorem parseV_backtick (f : Nat) (t : List Char) :
    parseV (f + 1) ('`' :: t) = Option.none := by
  rw [parseV.eq_def]
  simp [List.dropWhile, jsonWs, parseNatTok_backtick]

theorem loads_backtick (s : String) (t : List Char) (h : s.data = '`' :: t) :
    loads s = Option.none := by
  rw [loads, h]
  rw [show ('`' :: t).length + 1 = (t.length + 1) + 1 by simp]
  rw [parseV_backtick]

/-- First occurrence of `"\n" ++ pat` right after a newline-free block. -/
theorem subIdx_nl_after (pat : List Char) (J : List Char) (rest : List Char)
    (hJ : '\n' ∉ J) (hpre : pat.isPrefixOf rest = true) :
    subIdx ('\n' :: pat) (J ++ '\n' :: rest) = some J.length := by
  induction J with
  | nil =>
    simp only [List.nil_append, subIdx]
    rw [if_pos (by simp [List.isPrefixOf, hpre])]
    rfl
  | cons c J' ih =>
    have hc : c ≠ '\n' := fun he => hJ (by simp [he])
    have hJ' : '\n' ∉ J' := fun hm => hJ (by simp [hm])
    simp only [List.cons_append, subIdx]
    rw [if_neg ?hpre2]
    case hpre2 =>
      intro hcon
      simp only [List.isPrefixOf, Bool.and_eq_true, beq_iff_eq] at hcon
      exact hc hcon.1.symm
    simp only [List.append_eq]
    rw [ih hJ']
    simp

theorem take_length_append (a b : List Char) : (a ++ b).take a.length = a := by
  induction a with
  | nil => rfl
  | cons c t ih => simpa using ih

namespace ResponseParser

/-- The `\x60\x60\x60json` fence pattern recovers exactly a newline-free
object body from the standard fenced wrapping. -/
theorem searchFence_json (J : List Char) (d : List Char) (hd : J = '\x7b' :: d)
    (hnl : ('\n' : Char) ∉ J) :
    searchFence ['`', '`', '`', 'j', 's', 'o', 'n']
      ('`' :: '`' :: '`' :: 'j' :: 's' :: 'o' :: 'n' :: '\n' ::
        (J ++ ['\n', '`', '`', '`'])) = some J := by
  have hm : fenceMatchAt ('\n' :: (J ++ ['\n', '`', '`', '`'])) = some J := by
    rw [fenceMatchAt]
    have hrun : (('\n' :: (J ++ ['\n', '`', '`', '`'])).takeWhile pyWs).length = 1 := by
      subst hd
      rw [List.takeWhile_cons_of_pos (by decide)]
      rw [show ('\x7b' :: d) ++ ['\n', '`', '`', '`'] =
        '\x7b' :: (d ++ ['\n', '`', '`', '`']) from rfl]
      rw [List.takeWhile_cons_of_neg (by decide)]
      rfl
    rw [hrun]
    rw [show (1 : Nat) = 0 + 1 from rfl, fenceTry]
    rw [if_pos (show ('\n' :: (J ++ ['\n', '`', '`', '`']))[0]? = some '\n' by simp)]
    rw [show ('\n' :: (J ++ ['\n', '`', '`', '`'])).drop (0 + 1) =
      J ++ '\n' :: ['`', '`', '`'] from rfl]
    rw [subIdx_nl_after ['`', '`', '`'] J ['`', '`', '`'] hnl (by decide)]
    show some (List.take J.length (J ++ ['\n', '`', '`', '`'])) = some J
    rw [take_length_append]
  rw [searchFence]
  rw [if_pos (by simp [List.isPrefixOf])]
  rw [show (('`' :: '`' :: '`' :: 'j' :: 's' :: 'o' :: 'n' :: '\n' ::
    (J ++ ['\n', '`', '`', '`'])).drop ['`', '`', '`', 'j', 's', 'o', 'n'].length) =
    '\n' :: (J ++ ['\n', '`', '`', '`']) from rfl]
  rw [hm]

end ResponseParser

/-! ### Brace balance of serializer output -/

/-- A character other than the two curly braces. -/
def braceFreeChar (c : Char) : Bool := !(c = '\x7b' || c = '\x7d')

/-- No curly brace occurs in the character list. -/
def braceFree (l : List Char) : Bool := l.all braceFreeChar

mutual

/-- No curly brace occurs inside any string (key or value) of the value. -/
def nbVal : PyVal → Bool
  | .none => true
  | .bool _ => true
  | .int _ => true
  | .str s => braceFree s.data
  | .list l => nbList l
  | .dict d => nbMembers d
  termination_by structural v => v

def nbList : List PyVal → Bool
  | [] => true
  | v :: t => nbVal v && nbList t
  termination_by structural l => l

def nbMembers : List (String × PyVal) → Bool
  | [] => true
  | (k, v) :: t => braceFree k.data && (nbVal v && nbMembers t)
  termination_by structural l => l

end

theorem braceFreeChar_decDigit (d : Nat) : braceFreeChar (decDigit d) = true := by
  rw [decDigit]
  split_ifs <;> decide

theorem braceFree_natToCharsF (f : Nat) : ∀ n, braceFree (natToCharsF f n) = true := by
  induction f with
  | zero => intro n; rfl
  | succ f ih =>
    intro n
    rw [natToCharsF]
    split_ifs with h
    · rw [braceFree, List.all_cons, braceFreeChar_decDigit]
      rfl
    · rw [braceFree, List.all_append]
      have h1 := ih (n / 10)
      rw [braceFree] at h1
      rw [h1]
      rw [show List.all [decDigit (n % 10)] braceFreeChar =
        (braceFreeChar (decDigit (n % 10)) && true) from rfl]
      rw [braceFreeChar_decDigit]
      rfl

theorem braceFree_intToChars (n : Int) : braceFree (intToChars n) = true := by
  rw [intToChars]
  split_ifs with h
  · rw [braceFree, List.all_cons]
    have h2 := braceFree_natToCharsF (n.natAbs + 1) n.natAbs
    rw [braceFree] at h2
    rw [show natToChars n.natAbs = natToCharsF (n.natAbs + 1) n.natAbs from rfl, h2]
    rfl
  · exact braceFree_natToCharsF _ _

theorem braceFree_escapeChar (c : Char) (hc : braceFreeChar c = true) :
    braceFree (escapeChar c) = true := by
  rw [escapeChar]
  split_ifs <;> first
    | decide
    | (rw [braceFree, List.all_cons, hc]; rfl)

theorem braceFree_escapeStr (l : List Char) (hl : braceFree l = true) :
    braceFree (escapeStr l) = true := by
  induction l with
  | nil => rfl
  | cons c t ih =>
    rw [braceFree, List.all_cons, Bool.and_eq_true] at hl
    rw [escapeStr, braceFree, List.all_append]
    have h1 := braceFree_escapeChar c hl.1
    have h2 := ih hl.2
    rw [braceFree] at h1 h2
    rw [h1, h2]
    rfl

namespace ResponseParser

/-- The brace scan passes over brace-free text unchanged. -/
theorem braceScanAux_skip : ∀ (l : List Char), braceFree l = true →
    ∀ (rest : List Char) (d : Int) (acc : List Char),
    braceScanAux (l ++ rest) d acc = braceScanAux rest d (l.reverse ++ acc)
  | [], _, rest, d, acc => by simp
  | c :: t, hb, rest, d, acc => by
    rw [braceFree, List.all_cons, Bool.and_eq_true] at hb
    obtain ⟨hc, ht⟩ := hb
    rw [braceFreeChar] at hc
    simp only [Bool.not_eq_true', Bool.or_eq_false_iff, decide_eq_false_iff_not] at hc
    simp only [List.cons_append, braceScanAux]
    rw [if_neg hc.1, if_neg hc.2]
    rw [show t.append rest = t ++ rest from rfl]
    rw [braceScanAux_skip t ht rest d (c :: acc)]
    simp

end ResponseParser

namespace ResponseParser

theorem braceScanAux_cons_skip (c : Char) (hc1 : ¬ c = '\x7b') (hc2 : ¬ c = '\x7d')
    (X : List Char) (d : Int) (acc : List Char) :
    braceScanAux (c :: X) d acc = braceScanAux X d (c :: acc) := by
  rw [braceScanAux, if_neg hc1, if_neg hc2]

theorem braceScanAux_open (X : List Char) (d : Int) (acc : List Char) :
    braceScanAux ('\x7b' :: X) d acc = braceScanAux X (d + 1) ('\x7b' :: acc) := by
  rw [braceScanAux, if_pos rfl]

theorem braceScanAux_close (X : List Char) (d : Int) (hd : ¬ d - 1 = 0)
    (acc : List Char) :
    braceScanAux ('\x7d' :: X) d acc = braceScanAux X (d - 1) ('\x7d' :: acc) := by
  rw [braceScanAux, if_neg (by decide), if_pos rfl, if_neg hd]

theorem braceScanAux_close_zero (X : List Char) (d : Int) (hd : d - 1 = 0)
    (acc : List Char) :
    braceScanAux ('\x7d' :: X) d acc = some (('\x7d' :: acc).reverse) := by
  rw [braceScanAux, if_neg (by decide), if_pos rfl, if_pos hd]

mutual

/-- At positive depth, serializer output of a brace-controlled value is
consumed by the brace scan without the counter reaching zero. -/
theorem braceAux_val : ∀ (v : PyVal), nbVal v = true → ∀ (d : Int), 1 ≤ d →
    ∀ (rest acc : List Char),
    braceScanAux (dumpsVal v ++ rest) d acc =
      braceScanAux rest d ((dumpsVal v).reverse ++ acc)
  | .none, _, d, _, rest, acc => braceScanAux_skip _ (by decide) rest d acc
  | .bool true, _, d, _, rest, acc => braceScanAux_skip _ (by decide) rest d acc
  | .bool false, _, d, _, rest, acc => braceScanAux_skip _ (by decide) rest d acc
  | .int n, _, d, _, rest, acc => by
    have hb : braceFree (dumpsVal (.int n)) = true := by
      rw [show dumpsVal (.int n) = intToChars n from rfl]
      exact braceFree_intToChars n
    exact braceScanAux_skip _ hb rest d acc
  | .str s, hnb, d, _, rest, acc => by
    have hb : braceFree (dumpsVal (.str s)) = true := by
      rw [show dumpsVal (.str s) = '"' :: (escapeStr s.data ++ ['"']) from rfl]
      rw [braceFree, List.all_cons, List.all_append]
      have h2 := braceFree_escapeStr s.data hnb
      rw [braceFree] at h2
      rw [h2]
      decide
    exact braceScanAux_skip _ hb rest d acc
  | .list l, hnb, d, hd, rest, acc => by
    rw [show dumpsVal (.list l) = '[' :: (dumpsElems l ++ [']']) from rfl]
    rw [List.cons_append, List.append_assoc]
    rw [braceScanAux_cons_skip '[' (by decide) (by decide)]
    rw [braceAux_elems l hnb d hd ([']'] ++ rest) ('[' :: acc)]
    rw [show ([']'] ++ rest : List Char) = ']' :: rest from rfl]
    rw [braceScanAux_cons_skip ']' (by decide) (by decide)]
    congr 1
    simp
  | .dict m, hnb, d, hd, rest, acc => by
    rw [show dumpsVal (.dict m) = '\x7b' :: (dumpsMembers m ++ ['\x7d']) from rfl]
    rw [List.cons_append, List.append_assoc]
    rw [braceScanAux_open]
    rw [braceAux_members m hnb (d + 1) (by omega) (['\x7d'] ++ rest) ('\x7b' :: acc)]
    rw [show (['\x7d'] ++ rest : List Char) = '\x7d' :: rest from rfl]
    rw [braceScanAux_close rest (d + 1) (by omega) _]
    rw [show (d + 1 - 1 : Int) = d from by omega]
    congr 1
    simp

theorem braceAux_elems : ∀ (l : List PyVal), nbList l = true → ∀ (d : Int), 1 ≤ d →
    ∀ (rest acc : List Char),
    braceScanAux (dumpsElems l ++ rest) d acc =
      braceScanAux rest d ((dumpsElems l).reverse ++ acc)
  | [], _, d, _, rest, acc => by
    rw [show dumpsElems [] = ([] : List Char) from rfl]
    simp
  | [x], hnb, d, hd, rest, acc => by
    rw [show dumpsElems [x] = dumpsVal x from rfl]
    have hx : nbVal x = true := by
      have he : nbList [x] = (nbVal x && nbList []) := rfl
      rw [he, Bool.and_eq_true] at hnb
      exact hnb.1
    exact braceAux_val x hx d hd rest acc
  | x :: y :: t, hnb, d, hd, rest, acc => by
    rw [show dumpsElems (x :: y :: t) =
      dumpsVal x ++ ',' :: ' ' :: dumpsElems (y :: t) from rfl]
    have h2 : (nbVal x && nbList (y :: t)) = true := by
      have he : nbList (x :: y :: t) = (nbVal x && nbList (y :: t)) := rfl
      rw [← he]
      exact hnb
    rw [Bool.and_eq_true] at h2
    rw [List.append_assoc]
    rw [braceAux_val x h2.1 d hd _ acc]
    rw [show (',' :: ' ' :: dumpsElems (y :: t)) ++ rest =
      ',' :: ' ' :: (dumpsElems (y :: t) ++ rest) from rfl]
    rw [braceScanAux_cons_skip ',' (by decide) (by decide)]
    rw [braceScanAux_cons_skip ' ' (by decide) (by decide)]
    rw [braceAux_elems (y :: t) h2.2 d hd rest _]
    congr 1
    simp

theorem braceAux_members : ∀ (m : List (String × PyVal)), nbMembers m = true →
    ∀ (d : Int), 1 ≤ d → ∀ (rest acc : List Char),
    braceScanAux (dumpsMembers m ++ rest) d acc =
      braceScanAux rest d ((dumpsMembers m).reverse ++ acc)
  | [], _, d, _, rest, acc => by
    rw [show dumpsMembers [] = ([] : List Char) from rfl]
    simp
  | [(k, v)], hnb, d, hd, rest, acc => by
    have h3 : (braceFree k.data && (nbVal v && nbMembers [])) = true := by
      have he : nbMembers [(k, v)] =
        (braceFree k.data && (nbVal v && nbMembers [])) := rfl
      rw [← he]
      exact hnb
    rw [Bool.and_eq_true, Bool.and_eq_true] at h3
    rw [dumpsMembers_one, dumpsKV]
    rw [List.cons_append]
    rw [braceScanAux_cons_skip '"' (by decide) (by decide)]
    rw [List.append_assoc]
    rw [braceScanAux_skip (escapeStr k.data) (braceFree_escapeStr k.data h3.1) _ d _]
    rw [show ('"' :: ':' :: ' ' :: dumpsVal v) ++ rest =
      '"' :: ':' :: ' ' :: (dumpsVal v ++ rest) from rfl]
    rw [braceScanAux_cons_skip '"' (by decide) (by decide)]
    rw [braceScanAux_cons_skip ':' (by decide) (by decide)]
    rw [braceScanAux_cons_skip ' ' (by decide) (by decide)]
    rw [braceAux_val v h3.2.1 d hd rest _]
    congr 1
    simp [dumpsMembers_one, dumpsKV]
  | (k, v) :: m2 :: t, hnb, d, hd, rest, acc => by
    have h3 : (braceFree k.data && (nbVal v && nbMembers (m2 :: t))) = true := by
      have he : nbMembers ((k, v) :: m2 :: t) =
        (braceFree k.data && (nbVal v && nbMembers (m2 :: t))) := rfl
      rw [← he]
      exact hnb
    rw [Bool.and_eq_true, Bool.and_eq_true] at h3
    rw [dumpsMembers_cons, dumpsKV]
    rw [List.append_assoc]
    rw [List.cons_append]
    rw [braceScanAux_cons_skip '"' (by decide) (by decide)]
    rw [List.append_assoc]
    rw [braceScanAux_skip (escapeStr k.data) (braceFree_escapeStr k.data h3.1) _ d _]
    rw [show ('"' :: ':' :: ' ' :: dumpsVal v) ++ (',' :: ' ' :: dumpsMembers (m2 :: t) ++ rest) =
      '"' :: ':' :: ' ' :: (dumpsVal v ++ (',' :: ' ' :: dumpsMembers (m2 :: t) ++ rest)) from rfl]
    rw [braceScanAux_cons_skip '"' (by decide) (by decide)]
    rw [braceScanAux_cons_skip ':' (by decide) (by decide)]
    rw [braceScanAux_cons_skip ' ' (by decide) (by decide)]
    rw [braceAux_val v h3.2.1 d hd _ _]
    rw [show (',' :: ' ' :: dumpsMembers (m2 :: t) ++ rest : List Char) =
      ',' :: ' ' :: (dumpsMembers (m2 :: t) ++ rest) from rfl]
    rw [braceScanAux_cons_skip ',' (by decide) (by decide)]
    rw [braceScanAux_cons_skip ' ' (by decide) (by decide)]
    rw [braceAux_members (m2 :: t) h3.2.2 d hd rest _]
    congr 1
    simp [dumpsMembers_cons, dumpsKV]

end

/-- The brace scan recovers the whole serialized object of a brace-controlled
dict value. -/
theorem braceScan_dumps_dict (m : List (String × PyVal))
    (hnb : nbVal (.dict m) = true) :
    braceScan (dumps (PyVal.dict m)).data = some (dumps (PyVal.dict m)).data := by
  rw [show (dumps (PyVal.dict m)).data =
    '\x7b' :: (dumpsMembers m ++ ['\x7d']) from rfl]
  rw [braceScan]
  rw [braceScanAux_open]
  rw [show (0 + 1 : Int) = 1 from by omega]
  rw [braceAux_members m hnb 1 (by omega) ['\x7d'] ['\x7b']]
  rw [braceScanAux_close_zero _ 1 (by omega) _]
  congr 1
  simp

end ResponseParser

/-! ### The three wrapping styles of a reply and their extraction -/

/-- Markdown-fenced wrapping of a serialized reply. -/
def fencedWrap (s : String) : String := "```json\n" ++ s ++ "\n```"

/-- Provider-envelope wrapping: a `parts` array holding the serialized reply
as a text part. -/
def envelopeWrap (s : String) : PyVal :=
  .dict [("parts", .list [.dict [("type", .str "text"), ("text", .str s)]])]

theorem fencedWrap_data (s : String) :
    (fencedWrap s).data = '`' :: '`' :: '`' :: 'j' :: 's' :: 'o' :: 'n' :: '\n' ::
      (s.data ++ ['\n', '`', '`', '`']) := by
  cases s with
  | mk l => rfl

namespace ResponseParser

theorem extractJson_bare (r : ReplyObj) (hw : wfReply r)
    (hnb : nbVal (replyJson r) = true) :
    extractJson (dumps (replyJson r)) = .ok (some (dumps (replyJson r))) := by
  have hstrip : pyStrip (dumps (replyJson r)) = dumps (replyJson r) :=
    pyStrip_dumps_dict (replyMembers r)
  have hload : loads (dumps (replyJson r)) = some (PyVal.dict (replyMembers r)) :=
    loads_dumps _ hw
  have hbs : braceScan (dumps (replyJson r)).data = some (dumps (replyJson r)).data :=
    braceScan_dumps_dict (replyMembers r) hnb
  have hsw : startsWithChars ['\x7b'] (dumps (replyJson r)).data = true := by
    rw [show (dumps (replyJson r)).data =
      '\x7b' :: (dumpsMembers (replyMembers r) ++ ['\x7d']) from rfl]
    simp [startsWithChars, List.isPrefixOf]
  rw [extractJson]
  rw [hstrip, hload]
  simp [replyMembers, hsw, hbs, Bind.bind, Except.bind, pure, Except.pure]

end ResponseParser

namespace ResponseParser

theorem extractJson_fenced (r : ReplyObj) (hw : wfReply r) :
    extractJson (fencedWrap (dumps (replyJson r))) =
      .ok (some (dumps (replyJson r))) := by
  have hdata := fencedWrap_data (dumps (replyJson r))
  have hstripdata : (pyStrip (fencedWrap (dumps (replyJson r)))).data =
      '`' :: (('`' :: '`' :: 'j' :: 's' :: 'o' :: 'n' :: '\n' ::
        ((dumps (replyJson r)).data ++ ['\n', '`', '`'])) ++ ['`']) := by
    rw [pyStrip, hdata]
    rw [show '`' :: '`' :: '`' :: 'j' :: 's' :: 'o' :: 'n' :: '\n' ::
      ((dumps (replyJson r)).data ++ ['\n', '`', '`', '`']) =
      '`' :: (('`' :: '`' :: 'j' :: 's' :: 'o' :: 'n' :: '\n' ::
        ((dumps (replyJson r)).data ++ ['\n', '`', '`'])) ++ ['`']) from by simp]
    rw [stripChars_of_ends _ _ _ (by decide) (by decide)]
  have hload : loads (pyStrip (fencedWrap (dumps (replyJson r)))) = Option.none :=
    loads_backtick _ _ hstripdata
  have hsw : startsWithChars ['\x7b']
      (pyStrip (fencedWrap (dumps (replyJson r)))).data = false := by
    rw [hstripdata]
    rfl
  have hnl : ('\n' : Char) ∉ (dumps (replyJson r)).data :=
    nl_not_mem_dumps (replyJson r) hw
  have hsearch : searchFence ['`', '`', '`', 'j', 's', 'o', 'n']
      (fencedWrap (dumps (replyJson r))).data = some (dumps (replyJson r)).data := by
    rw [hdata]
    exact searchFence_json _ _ rfl hnl
  have hloadJ : loads (dumps (replyJson r)) = some (PyVal.dict (replyMembers r)) :=
    loads_dumps _ hw
  have htp : patternScan (fencedWrap (dumps (replyJson r))) =
      some (dumps (replyJson r)) := by
    rw [patternScan, hsearch]
    rw [show tryPattern (some (dumps (replyJson r)).data) =
      (if (loads (dumps (replyJson r))).isSome then some (dumps (replyJson r))
        else Option.none) from rfl]
    rw [hloadJ]
    rfl
  rw [extractJson]
  rw [hload]
  simp [hsw, htp, Bind.bind, Except.bind, pure, Except.pure]

theorem extractJson_envelope (r : ReplyObj) (hw : wfReply r) :
    extractJson (dumps (envelopeWrap (dumps (replyJson r)))) =
      .ok (some (dumps (replyJson r))) := by
  have hwfJ : wfStr (dumps (replyJson r)) = true := dumps_wfStr _ hw
  have h1 : wfStr "parts" = true := by decide
  have h2 : wfStr "type" = true := by decide
  have h3 : wfStr "text" = true := by decide
  have hwfenv : wfVal (envelopeWrap (dumps (replyJson r))) = true := by
    simp [envelopeWrap, wfVal, wfList, wfMembers, distinctKeys, h1, h2, h3, hwfJ]
  have hstrip : pyStrip (dumps (envelopeWrap (dumps (replyJson r)))) =
      dumps (envelopeWrap (dumps (replyJson r))) :=
    pyStrip_dumps_dict [("parts", .list [.dict [("type", .str "text"),
      ("text", .str (dumps (replyJson r)))]])]
  have hloadE : loads (dumps (envelopeWrap (dumps (replyJson r)))) =
      some (envelopeWrap (dumps (replyJson r))) := loads_dumps _ hwfenv
  have hstripJ : pyStrip (dumps (replyJson r)) = dumps (replyJson r) :=
    pyStrip_dumps_dict (replyMembers r)
  have hswJ : startsWithChars ['\x7b'] (pyStrip (dumps (replyJson r))).data = true := by
    rw [hstripJ]
    rw [show (dumps (replyJson r)).data =
      '\x7b' :: (dumpsMembers (replyMembers r) ++ ['\x7d']) from rfl]
    simp [startsWithChars, List.isPrefixOf]
  have hloadJ : (loads (dumps (replyJson r))).isSome = true := by
    rw [loads_dumps _ hw]
    rfl
  rw [extractJson]
  rw [hstrip, hloadE]
  rw [show envelopeWrap (dumps (replyJson r)) = .dict [("parts", .list [.dict
    [("type", .str "text"), ("text", .str (dumps (replyJson r)))]])] from rfl]
  simp [scanParts, pyDictGet, pyIter, List.lookup, hswJ, hloadJ, PyVal.str.injEq,
    Bind.bind, Except.bind, pure, Except.pure]

end ResponseParser

namespace ResponseParser

/-- `parse` on a raw text whose extraction recovers the serialized reply. -/
theorem parse_of_extract (raw : String) (task : Option LLMTask) (r : ReplyObj)
    (hw : wfReply r)
    (hex : extractJson raw = .ok (some (dumps (replyJson r)))) :
    parse raw task = .ok (replyParsed r { raw_response := raw }) := by
  rw [parse, hex]
  have hload : loads (dumps (replyJson r)) = some (replyJson r) := loads_dumps _ hw
  simp only [Bind.bind, Except.bind]
  rw [hload]
  exact parseRD_reply r _

end ResponseParser

/-! ### Claim theorems -/

theorem pyStrip_len_pos_iff (s : String) :
    (0 < (pyStrip s).length) ↔ pyStrip s ≠ "" := by
  rw [pyStrip]
  cases hc : stripChars s.data with
  | nil => simp [String.length]
  | cons c t =>
    constructor
    · intro _ he
      have : (String.mk (c :: t)).data = ("" : String).data := by rw [he]
      simp at this
    · intro _
      simp [String.length]

/-- C5 (code_bug): the parser is not total.  A raw response that is a
top-level JSON object whose `parts` value is the integer `5` makes
`_extract_json` iterate over an `int`, raising `TypeError` — no `Response`
is returned. -/
theorem C5_parse_parts_int_raises :
    ResponseParser.parse "\x7b\"parts\": 5\x7d" Option.none =
      .error .typeError := by
  rfl

/-- C6 (code_bug): token extraction is not raise-free.  A response
dictionary whose `usage` value is the string `"prompt_tokens"` passes the
truthiness-and-membership test (substring containment on a string) and then
calls `.get` on that string, raising `AttributeError`. -/
theorem C6_usage_string_raises :
    extractTokenUsage (PyVal.dict [("usage", PyVal.str "prompt_tokens")]) =
      .error .attributeError := by
  rfl

/-- C7 (corrected): `is_valid` is blind to the artifact kind.  It is true
iff mode and content are both non-null and the content is a string whose
strip is non-empty or a dict — any dict, including the empty one. -/
theorem C7_is_valid_characterization (p : LLMProposal) :
    p.is_valid = true ↔ (p.mode ≠ PyVal.none ∧ p.content ≠ PyVal.none ∧
      ((∃ s, p.content = PyVal.str s ∧ pyStrip s ≠ "") ∨
       (∃ d, p.content = PyVal.dict d))) := by
  rw [LLMProposal.is_valid]
  by_cases hm : p.mode = PyVal.none
  · simp [hm]
  · cases hc : p.content <;>
      simp [hm, hc, pyStrip_len_pos_iff]

/-- C7 counterexample: a proposal whose content is the empty dict is valid
even though the claim requires non-empty content for its kind. -/
theorem C7_counterexample :
    (LLMProposal.mk (PyVal.str "replace") (PyVal.dict [])).is_valid = true := by
  rfl

/-- C8 (confirmed): `reset_conversation` is idempotent and establishes the
fully cleared state: empty history, zero token counter, all artifact
checksums and the rules checksum cleared, first-interaction true. -/
theorem C8_reset_idempotent (st : TabState) :
    TabContext.reset_conversation (TabContext.reset_conversation st) =
      TabContext.reset_conversation st ∧
    (TabContext.reset_conversation st).messages = [] ∧
    (TabContext.reset_conversation st).cumulative_tokens = 0 ∧
    (TabContext.reset_conversation st).first_interaction = true ∧
    (TabContext.reset_conversation st).checksum_text = Option.none ∧
    (TabContext.reset_conversation st).checksum_json = Option.none ∧
    (TabContext.reset_conversation st).checksum_code = Option.none ∧
    (TabContext.reset_conversation st).rules_checksum = Option.none :=
  ⟨rfl, rfl, rfl, rfl, rfl, rfl, rfl, rfl⟩

/-- `_validate_contract` either returns the response unchanged or only
rewrites `success` and `error_message`. -/
theorem validate_cases (tab : TabId) (ct : Option LLMTask) (r : LLMResponse) :
    TabContext.validate_contract tab ct r = r ∨
    ∃ e, TabContext.validate_contract tab ct r =
      { r with success := false, error_message := e } := by
  rw [TabContext.validate_contract.eq_def]
  by_cases h1 : TabContext.violationList r (get_allowed_artifacts tab) ≠ []
  · right
    exact ⟨TabContext.tabViolationMsg tab
      (TabContext.violationList r (get_allowed_artifacts tab))
      (get_allowed_artifacts tab), by simp [h1]⟩
  · cases ct with
    | none =>
      left
      simp [h1]
    | some t =>
      cases hge : get_task_expected_artifacts t with
      | none =>
        left
        simp [h1, hge]
      | some expected =>
        by_cases h2 : TabContext.violationList r expected ≠ []
        · right
          exact ⟨TabContext.taskViolationMsg t expected
            (TabContext.violationList r expected), by simp [h1, hge, h2]⟩
        · left
          simp [h1, hge, h2]

/-- C9 (confirmed): contract validation is a frame on everything but
`success` and `error_message`: the proposal fields, their contents and all
other response fields are returned unchanged. -/
theorem C9_validate_frame (tab : TabId) (ct : Option LLMTask)
    (r : LLMResponse) :
    (TabContext.validate_contract tab ct r).procedure_json = r.procedure_json ∧
    (TabContext.validate_contract tab ct r).test_code = r.test_code ∧
    (TabContext.validate_contract tab ct r).procedure_text = r.procedure_text ∧
    (TabContext.validate_contract tab ct r).text_patches = r.text_patches ∧
    (TabContext.validate_contract tab ct r).raw_response = r.raw_response ∧
    (TabContext.validate_contract tab ct r).context_exceeded = r.context_exceeded ∧
    (TabContext.validate_contract tab ct r).task = r.task ∧
    (TabContext.validate_contract tab ct r).strict_mode = r.strict_mode ∧
    (TabContext.validate_contract tab ct r).prompt_tokens = r.prompt_tokens ∧
    (TabContext.validate_contract tab ct r).completion_tokens = r.completion_tokens ∧
    (TabContext.validate_contract tab ct r).total_tokens = r.total_tokens ∧
    (TabContext.validate_contract tab ct r).assistant_message = r.assistant_message ∧
    (TabContext.validate_contract tab ct r).validation_status = r.validation_status ∧
    (TabContext.validate_contract tab ct r).issues = r.issues ∧
    (TabContext.validate_contract tab ct r).assumptions = r.assumptions ∧
    (TabContext.validate_contract tab ct r).session_delta = r.session_delta := by
  rcases validate_cases tab ct r with h | ⟨e, h⟩ <;> rw [h] <;>
    exact ⟨rfl, rfl, rfl, rfl, rfl, rfl, rfl, rfl, rfl, rfl, rfl, rfl, rfl,
      rfl, rfl, rfl⟩

/-- The scenario response of C2: proposals for both `procedure_json` and
`test_code`, with truthy modes. -/
def c2ScenarioResponse : LLMResponse :=
  { success := true,
    procedure_json := some ⟨PyVal.str "replace", PyVal.dict []⟩,
    test_code := some ⟨PyVal.str "replace", PyVal.str "code"⟩ }

/-- C2 (corrected): two-level contract validation, tab level first with an
early return; the checks fire on proposals with a truthy `mode` (a non-null
but empty `mode` string escapes both levels).  The scenario: on the
json_code tab with task `generate_code_from_json`, proposing both
`procedure_json` and `test_code` fails with the task-level message naming
`procedure_json`. -/
theorem C2_two_level_validation (tab : TabId) (ct : Option LLMTask)
    (r : LLMResponse) :
    (TabContext.violationList r (get_allowed_artifacts tab) ≠ [] →
      TabContext.validate_contract tab ct r =
        { r with
          success := false,
          error_message := TabContext.tabViolationMsg tab
            (TabContext.violationList r (get_allowed_artifacts tab))
            (get_allowed_artifacts tab) }) ∧
    (∀ t expected, TabContext.violationList r (get_allowed_artifacts tab) = [] →
      ct = some t → get_task_expected_artifacts t = some expected →
      TabContext.violationList r expected ≠ [] →
      TabContext.validate_contract tab ct r =
        { r with
          success := false,
          error_message := TabContext.taskViolationMsg t expected
            (TabContext.violationList r expected) }) ∧
    (TabContext.validate_contract .json_code (some .generate_code_from_json)
      c2ScenarioResponse =
      { c2ScenarioResponse with
        success := false,
        error_message := TabContext.taskViolationMsg .generate_code_from_json
          ["test_code"] ["procedure_json"] }) := by
  refine ⟨?_, ?_, ?_⟩
  · intro h1
    rw [TabContext.validate_contract.eq_def]
    simp [h1]
  · intro t expected h1 hct hge h2
    subst hct
    rw [TabContext.validate_contract.eq_def]
    simp [h1, hge, h2]
  · rfl

/-- C2 counterexample: a `test_code` proposal whose `mode` is the non-null
empty string on the text_json tab (which forbids `test_code`) passes
validation unchanged, with `success` still true. -/
theorem C2_counterexample :
    TabContext.validate_contract .text_json Option.none
      { success := true, test_code := some ⟨PyVal.str "", PyVal.str "code"⟩ } =
      { success := true, test_code := some ⟨PyVal.str "", PyVal.str "code"⟩ } ∧
    (some (⟨PyVal.str "", PyVal.str "code"⟩ : LLMProposal)).map
      (fun p => p.mode) ≠ some PyVal.none := by
  exact ⟨rfl, by decide⟩

/-- A small schema-conforming reply used as a concrete instance. -/
def sampleReply : ReplyObj :=
  { task := "", strict_mode := true, assistant_message := "ok",
    validation_status := "", issues := [], assumptions := [],
    procedure_json := Option.none, test_code := Option.none,
    procedure_text := Option.none, text_patches := [],
    session_delta_intent := "", open_questions := [],
    resolved_questions := [], decisions_added := [] }

/-- A schema-conforming reply whose assistant message contains a closing
brace. -/
def c3BadReply : ReplyObj :=
  { sampleReply with assistant_message := "ok\x7d" }

/-- The raw text of the C3 scenario: prose around a plain-fenced object. -/
def c3ScenarioRaw : String :=
  "Some prose\n```\n\x7b\"type\":\"llm_turn\",\"assistant_message\":\"ok\"\x7d\n```\nmore prose"

/-- C3 (corrected): the round-trip holds for all three wrapping styles for
reply objects none of whose strings contains a curly brace; without that
restriction the bare style fails, because the brace scan of `_extract_json`
counts braces inside string literals.  The fenced scenario of the claim
also holds. -/
theorem C3_roundtrip (r : ReplyObj) (task : Option LLMTask) (hw : wfReply r)
    (hnb : nbVal (replyJson r) = true) :
    ResponseParser.parse (dumps (replyJson r)) task =
      .ok (replyParsed r { raw_response := dumps (replyJson r) }) ∧
    ResponseParser.parse (fencedWrap (dumps (replyJson r))) task =
      .ok (replyParsed r { raw_response := fencedWrap (dumps (replyJson r)) }) ∧
    ResponseParser.parse (dumps (envelopeWrap (dumps (replyJson r)))) task =
      .ok (replyParsed r
        { raw_response := dumps (envelopeWrap (dumps (replyJson r))) }) ∧
    (ResponseParser.parse c3ScenarioRaw Option.none).map
      (fun resp => (resp.success, resp.assistant_message)) =
      .ok (true, PyVal.str "ok") := by
  refine ⟨?_, ?_, ?_, ?_⟩
  · exact ResponseParser.parse_of_extract _ task r hw
      (ResponseParser.extractJson_bare r hw hnb)
  · exact ResponseParser.parse_of_extract _ task r hw
      (ResponseParser.extractJson_fenced r hw)
  · exact ResponseParser.parse_of_extract _ task r hw
      (ResponseParser.extractJson_envelope r hw)
  · rfl

/-- C3 counterexample: for the well-formed reply whose assistant message is
`ok\x7d`, parsing the bare wrapping does not recover the reply: the brace
scan truncates inside the string and the parse fails. -/
theorem C3_counterexample :
    wfReply c3BadReply ∧
    (ResponseParser.parse (dumps (replyJson c3BadReply)) Option.none).map
      (fun resp => (resp.success, resp.error_message)) =
      .ok (false, "Invalid JSON: JSONDecodeError") := by
  exact ⟨by decide, rfl⟩

/-- C3 witness: the round-trip theorem applied to the concrete
`sampleReply`. -/
theorem C3_witness :
    wfReply sampleReply ∧ nbVal (replyJson sampleReply) = true ∧
    (ResponseParser.parse (dumps (replyJson sampleReply)) Option.none =
      .ok (replyParsed sampleReply
        { raw_response := dumps (replyJson sampleReply) }) ∧
    ResponseParser.parse (fencedWrap (dumps (replyJson sampleReply)))
      Option.none =
      .ok (replyParsed sampleReply
        { raw_response := fencedWrap (dumps (replyJson sampleReply)) }) ∧
    ResponseParser.parse (dumps (envelopeWrap (dumps (replyJson sampleReply))))
      Option.none =
      .ok (replyParsed sampleReply
        { raw_response := dumps (envelopeWrap (dumps (replyJson sampleReply))) }) ∧
    (ResponseParser.parse c3ScenarioRaw Option.none).map
      (fun resp => (resp.success, resp.assistant_message)) =
      .ok (true, PyVal.str "ok")) :=
  ⟨by decide, by decide,
    C3_roundtrip sampleReply Option.none (by decide) (by decide)⟩

/-- A `parts` entry that the text-message fallback handles without raising:
when it is a text part, its `text` value is a string, a dict, or falsy. -/
def textSafe (p : PyVal) : Bool :=
  match p with
  | .dict d =>
    if (List.lookup "type" d).getD PyVal.none = PyVal.str "text" then
      match (List.lookup "text" d).getD (PyVal.str "") with
      | .str _ => true
      | .dict _ => true
      | tc => !PyVal.truthy tc
    else true
  | _ => true

theorem collectTexts_strs : ∀ (l : List PyVal), l.all textSafe = true →
    ∀ v ∈ ResponseParser.collectTexts l, ∃ s, v = PyVal.str s
  | [], _, v, hv => by simp [ResponseParser.collectTexts] at hv
  | .dict d :: rest, hs, v, hv => by
    rw [List.all_cons, Bool.and_eq_true] at hs
    obtain ⟨hp, hrest⟩ := hs
    replace hv : v ∈ (if (List.lookup "type" d).getD PyVal.none =
        PyVal.str "text" then
        match (List.lookup "text" d).getD (PyVal.str "") with
        | PyVal.dict td =>
          if "assistant_message" ∈ td.map Prod.fst then
            PyVal.str (pyToStr ((List.lookup "assistant_message" td).getD
              PyVal.none)) :: ResponseParser.collectTexts rest
          else ResponseParser.collectTexts rest
        | tc =>
          if PyVal.truthy tc then tc :: ResponseParser.collectTexts rest
          else ResponseParser.collectTexts rest
      else ResponseParser.collectTexts rest) := hv
    replace hp : (if (List.lookup "type" d).getD PyVal.none =
        PyVal.str "text" then
        match (List.lookup "text" d).getD (PyVal.str "") with
        | PyVal.str _ => true
        | PyVal.dict _ => true
        | tc => !PyVal.truthy tc
      else true) = true := hp
    by_cases ht : (List.lookup "type" d).getD PyVal.none = PyVal.str "text"
    · rw [if_pos ht] at hv
      rw [if_pos ht] at hp
      cases htx : (List.lookup "text" d).getD (PyVal.str "") with
      | dict td =>
        rw [htx] at hv
        replace hv : v ∈ (if "assistant_message" ∈ td.map Prod.fst then
            PyVal.str (pyToStr ((List.lookup "assistant_message" td).getD
              PyVal.none)) :: ResponseParser.collectTexts rest
          else ResponseParser.collectTexts rest) := hv
        by_cases ha : "assistant_message" ∈ td.map Prod.fst
        · rw [if_pos ha] at hv
          rcases List.mem_cons.mp hv with h | h
          · exact ⟨_, h⟩
          · exact collectTexts_strs rest hrest v h
        · rw [if_neg ha] at hv
          exact collectTexts_strs rest hrest v hv
      | str s =>
        rw [htx] at hv
        replace hv : v ∈ (if PyVal.truthy (PyVal.str s) then
            PyVal.str s :: ResponseParser.collectTexts rest
          else ResponseParser.collectTexts rest) := hv
        by_cases htr : PyVal.truthy (PyVal.str s)
        · rw [if_pos htr] at hv
          rcases List.mem_cons.mp hv with h | h
          · exact ⟨s, h⟩
          · exact collectTexts_strs rest hrest v h
        · rw [if_neg htr] at hv
          exact collectTexts_strs rest hrest v hv
      | none =>
        rw [htx] at hv
        rw [htx] at hp
        replace hp : (!PyVal.truthy PyVal.none) = true := hp
        rw [Bool.not_eq_true'] at hp
        replace hv : v ∈ (if PyVal.truthy PyVal.none then
            PyVal.none :: ResponseParser.collectTexts rest
          else ResponseParser.collectTexts rest) := hv
        rw [if_neg (by simp [hp])] at hv
        exact collectTexts_strs rest hrest v hv
      | bool b =>
        rw [htx] at hv
        rw [htx] at hp
        replace hp : (!PyVal.truthy (PyVal.bool b)) = true := hp
        rw [Bool.not_eq_true'] at hp
        replace hv : v ∈ (if PyVal.truthy (PyVal.bool b) then
            PyVal.bool b :: ResponseParser.collectTexts rest
          else ResponseParser.collectTexts rest) := hv
        rw [if_neg (by simp [hp])] at hv
        exact collectTexts_strs rest hrest v hv
      | int n =>
        rw [htx] at hv
        rw [htx] at hp
        replace hp : (!PyVal.truthy (PyVal.int n)) = true := hp
        rw [Bool.not_eq_true'] at hp
        replace hv : v ∈ (if PyVal.truthy (PyVal.int n) then
            PyVal.int n :: ResponseParser.collectTexts rest
          else ResponseParser.collectTexts rest) := hv
        rw [if_neg (by simp [hp])] at hv
        exact collectTexts_strs rest hrest v hv
      | list xs =>
        rw [htx] at hv
        rw [htx] at hp
        replace hp : (!PyVal.truthy (PyVal.list xs)) = true := hp
        rw [Bool.not_eq_true'] at hp
        replace hv : v ∈ (if PyVal.truthy (PyVal.list xs) then
            PyVal.list xs :: ResponseParser.collectTexts rest
          else ResponseParser.collectTexts rest) := hv
        rw [if_neg (by simp [hp])] at hv
        exact collectTexts_strs rest hrest v hv
    · rw [if_neg ht] at hv
      exact collectTexts_strs rest hrest v hv
  | .none :: rest, hs, v, hv => by
    rw [List.all_cons, Bool.and_eq_true] at hs
    exact collectTexts_strs rest hs.2 v hv
  | .bool b :: rest, hs, v, hv => by
    rw [List.all_cons, Bool.and_eq_true] at hs
    exact collectTexts_strs rest hs.2 v hv
  | .int n :: rest, hs, v, hv => by
    rw [List.all_cons, Bool.and_eq_true] at hs
    exact collectTexts_strs rest hs.2 v hv
  | .str s :: rest, hs, v, hv => by
    rw [List.all_cons, Bool.and_eq_true] at hs
    exact collectTexts_strs rest hs.2 v hv
  | .list xs :: rest, hs, v, hv => by
    rw [List.all_cons, Bool.and_eq_true] at hs
    exact collectTexts_strs rest hs.2 v hv

theorem pyJoin_ok_of_strs (sep : String) : ∀ (l : List PyVal),
    (∀ v ∈ l, ∃ s, v = PyVal.str s) → ∃ j, pyJoin sep l = .ok j
  | [], _ => ⟨"", rfl⟩
  | [x], h => by
    obtain ⟨s, hs⟩ := h x (by simp)
    subst hs
    exact ⟨s, rfl⟩
  | x :: y :: t, h => by
    obtain ⟨s, hs⟩ := h x (by simp)
    obtain ⟨j, hj⟩ := pyJoin_ok_of_strs sep (y :: t)
      (fun v hv => h v (List.mem_cons_of_mem x hv))
    subst hs
    rw [show pyJoin sep (PyVal.str s :: y :: t) =
      (pyJoin sep (y :: t)).map (fun r => s ++ sep ++ r) from rfl, hj]
    exact ⟨s ++ sep ++ j, rfl⟩

/-- The text-message fallback never raises on an envelope whose parts are
`textSafe`. -/
theorem extractTextMessage_envelope_ok (parts : List PyVal)
    (hwf : wfVal (PyVal.dict [("parts", PyVal.list parts)]) = true)
    (hsafe : parts.all textSafe = true) :
    ∃ am, ResponseParser.extractTextMessage
      (dumps (PyVal.dict [("parts", PyVal.list parts)])) = .ok am := by
  have hstrip : pyStrip (dumps (PyVal.dict [("parts", PyVal.list parts)])) =
      dumps (PyVal.dict [("parts", PyVal.list parts)]) := pyStrip_dumps_dict _
  have hload : loads (dumps (PyVal.dict [("parts", PyVal.list parts)])) =
      some (PyVal.dict [("parts", PyVal.list parts)]) := loads_dumps _ hwf
  rw [ResponseParser.extractTextMessage, hstrip, hload]
  by_cases he : (ResponseParser.collectTexts parts).isEmpty
  · by_cases hfb : (stripChars (ResponseParser.removeFences
        (dumps (PyVal.dict [("parts", PyVal.list parts)])).data)).isEmpty
    · exact ⟨"Received response but could not parse it.",
        by simp [he, hfb, List.lookup, pyIter, Bind.bind, Except.bind, pure,
          Except.pure]⟩
    · exact ⟨String.mk ((stripChars (ResponseParser.removeFences
          (dumps (PyVal.dict [("parts", PyVal.list parts)])).data)).take 500),
        by simp [he, hfb, List.lookup, pyIter, Bind.bind, Except.bind, pure,
          Except.pure]⟩
  · obtain ⟨j, hj⟩ := pyJoin_ok_of_strs "\n\n"
      (ResponseParser.collectTexts parts) (collectTexts_strs parts hsafe)
    exact ⟨j, by simp [he, hj, List.lookup, pyIter, Bind.bind, Except.bind,
      pure, Except.pure]⟩

/-- C10 (corrected): a raw text that is a JSON object with a `parts` array
in which no part yields an inner JSON candidate is never parsed as the turn
object: `parse` returns a failed response — provided the parts are also
`textSafe`, since the fallback otherwise raises while joining non-string
text parts (and a thinking part with non-string content already raises
inside extraction). -/
theorem C10_envelope_no_inner_json (parts : List PyVal)
    (task : Option LLMTask)
    (hwf : wfVal (PyVal.dict [("parts", PyVal.list parts)]) = true)
    (hscan : ResponseParser.scanParts parts = .ok Option.none)
    (hsafe : parts.all textSafe = true) :
    ∃ resp, ResponseParser.parse
      (dumps (PyVal.dict [("parts", PyVal.list parts)])) task = .ok resp ∧
      resp.success = false ∧
      resp.error_message = "No valid JSON found in response" := by
  have hstrip : pyStrip (dumps (PyVal.dict [("parts", PyVal.list parts)])) =
      dumps (PyVal.dict [("parts", PyVal.list parts)]) := pyStrip_dumps_dict _
  have hload : loads (dumps (PyVal.dict [("parts", PyVal.list parts)])) =
      some (PyVal.dict [("parts", PyVal.list parts)]) := loads_dumps _ hwf
  have hext : ResponseParser.extractJson
      (dumps (PyVal.dict [("parts", PyVal.list parts)])) = .ok Option.none := by
    rw [ResponseParser.extractJson, hstrip, hload]
    simp [hscan, List.lookup, pyIter, Bind.bind, Except.bind, pure,
      Except.pure]
  obtain ⟨am, ham⟩ := extractTextMessage_envelope_ok parts hwf hsafe
  refine ⟨{
    raw_response := dumps (PyVal.dict [("parts", PyVal.list parts)]),
    success := false,
    error_message := "No valid JSON found in response",
    assistant_message := PyVal.str am }, ?_, rfl, rfl⟩
  rw [ResponseParser.parse, hext]
  simp [ham, Bind.bind, Except.bind, pure, Except.pure]

/-- C10 counterexample: an envelope whose only part is a thinking part with
integer content raises `AttributeError` instead of returning a failed
response. -/
theorem C10_counterexample :
    ResponseParser.parse (dumps (PyVal.dict [("parts", PyVal.list
      [PyVal.dict [("type", PyVal.str "thinking"), ("content", PyVal.int 5)]])]))
      Option.none = .error .attributeError := by
  rfl

/-- The concrete parts list of the C10 witness. -/
def c10Parts : List PyVal :=
  [PyVal.dict [("type", PyVal.str "text"), ("text", PyVal.str "hello")]]

/-- C10 witness: the amended theorem applied at a concrete envelope. -/
theorem C10_witness :
    wfVal (PyVal.dict [("parts", PyVal.list c10Parts)]) = true ∧
    ResponseParser.scanParts c10Parts = .ok Option.none ∧
    c10Parts.all textSafe = true ∧
    (∃ resp, ResponseParser.parse
      (dumps (PyVal.dict [("parts", PyVal.list c10Parts)])) Option.none =
      .ok resp ∧ resp.success = false ∧
      resp.error_message = "No valid JSON found in response") :=
  ⟨by decide, rfl, by decide,
    C10_envelope_no_inner_json c10Parts Option.none (by decide) rfl
      (by decide)⟩

namespace TabContext

theorem setChecksum_mc (st : TabState) (n v : String) :
    (setChecksum st n v).messages = st.messages ∧
    (setChecksum st n v).cumulative_tokens = st.cumulative_tokens := by
  rw [setChecksum]
  split_ifs <;> exact ⟨rfl, rfl⟩

theorem mark_sent_mc (hash : String → String) (st : TabState) (n c : String) :
    (mark_artifact_sent hash st n c).messages = st.messages ∧
    (mark_artifact_sent hash st n c).cumulative_tokens =
      st.cumulative_tokens := by
  rw [mark_artifact_sent]
  exact ⟨(setChecksum_mc st n (hash c)).1, (setChecksum_mc st n (hash c)).2⟩

theorem condStep_mc (hash : String → String) (contents : ArtifactContents)
    (force : Bool) (required : List String) (name : String)
    (acc : ArtifactContents × TabState) :
    (condArtifactStep hash contents force required name acc).2.messages =
      acc.2.messages ∧
    (condArtifactStep hash contents force required name acc).2.cumulative_tokens =
      acc.2.cumulative_tokens := by
  rw [condArtifactStep]
  by_cases h1 : name ∈ required
  · rw [if_pos h1]
    cases hgc : getArtifactContent contents name with
    | none =>
      simp only [hgc]
      exact ⟨trivial, trivial⟩
    | some c =>
      simp only [hgc]
      split_ifs with h2 h3
      · exact ⟨(mark_sent_mc hash acc.2 name c).1,
          (mark_sent_mc hash acc.2 name c).2⟩
      · exact ⟨rfl, rfl⟩
      · exact ⟨rfl, rfl⟩
  · rw [if_neg h1]
    exact ⟨rfl, rfl⟩

theorem buildCtx_mc (hash : String → String) (contents : ArtifactContents)
    (required : List String) (force : Bool) (st : TabState) :
    (build_conditional_artifact_context hash contents required force st).2.messages =
      st.messages ∧
    (build_conditional_artifact_context hash contents required force st).2.cumulative_tokens =
      st.cumulative_tokens := by
  rw [build_conditional_artifact_context]
  have h1 := condStep_mc hash contents force required "procedure_text"
    ({}, st)
  have h2 := condStep_mc hash contents force required "procedure_json"
    (condArtifactStep hash contents force required "procedure_text" ({}, st))
  have h3 := condStep_mc hash contents force required "test_code"
    (condArtifactStep hash contents force required "procedure_json"
      (condArtifactStep hash contents force required "procedure_text" ({}, st)))
  exact ⟨h3.1.trans (h2.1.trans h1.1), h3.2.trans (h2.2.trans h1.2)⟩

theorem update_opt_mc (hash : String → String) (st : TabState)
    (request : LLMRequest) :
    (update_optimization_state hash st request).messages = st.messages ∧
    (update_optimization_state hash st request).cumulative_tokens =
      st.cumulative_tokens := by
  simp only [update_optimization_state, update_rules_checksum]
  cases hrc : request.rules_content with
  | none =>
    simp only [hrc]
    split_ifs <;> exact ⟨rfl, rfl⟩
  | some rc =>
    simp only [hrc]
    split_ifs <;> exact ⟨rfl, rfl⟩

theorem build_request_mc (hash : String → String) (tab : TabId)
    (contents : ArtifactContents) (rulesContent : Option String)
    (sessionSummary : String) (task : LLMTask) (userMessage : Option String)
    (strictMode : Bool) (force : Bool) (st : TabState) :
    (build_request hash tab contents rulesContent sessionSummary task
      userMessage strictMode force st).2.messages = st.messages ∧
    (build_request hash tab contents rulesContent sessionSummary task
      userMessage strictMode force st).2.cumulative_tokens =
      st.cumulative_tokens := by
  simp only [build_request]
  constructor
  · rw [(update_opt_mc hash _ _).1, (buildCtx_mc hash contents _ force _).1]
    split_ifs with hC
    · cases rulesContent with
      | none => rfl
      | some rc =>
        simp only [update_rules_checksum]
        split_ifs <;> rfl
    · rfl
  · rw [(update_opt_mc hash _ _).2, (buildCtx_mc hash contents _ force _).2]
    split_ifs with hC
    · cases rulesContent with
      | none => rfl
      | some rc =>
        simp only [update_rules_checksum]
        split_ifs <;> rfl
    · rfl

end TabContext

/-- C4 (corrected): `send_task` always returns a response and evolves the
history and token counter by exactly these rules: the user message is
appended when truthy, and the assistant message and token total are
recorded only when the (validated) response is successful with a truthy
assistant message — not unconditionally as claimed. -/
theorem C4_send_task_effects (hash : String → String) (tab : TabId)
    (contents : ArtifactContents) (rulesContent : Option String)
    (sessionSummary : String) (backend : LLMRequest → LLMResponse)
    (task : LLMTask) (user_message : Option String) (strict_mode : Bool)
    (st : TabState) :
    (TabContext.send_task hash tab contents rulesContent sessionSummary backend
        task user_message strict_mode st).2.cumulative_tokens =
      st.cumulative_tokens +
      (if (TabContext.send_task hash tab contents rulesContent sessionSummary
            backend task user_message strict_mode st).1.success &&
          PyVal.truthy (TabContext.send_task hash tab contents rulesContent
            sessionSummary backend task user_message strict_mode
            st).1.assistant_message
        then (TabContext.send_task hash tab contents rulesContent
          sessionSummary backend task user_message strict_mode
          st).1.total_tokens
        else 0) ∧
    (TabContext.send_task hash tab contents rulesContent sessionSummary backend
        task user_message strict_mode st).2.messages =
      st.messages ++
      (if truthyStrOpt user_message then
        [{ role := "user", content := PyVal.str (user_message.getD "") }]
       else []) ++
      (if (TabContext.send_task hash tab contents rulesContent sessionSummary
            backend task user_message strict_mode st).1.success &&
          PyVal.truthy (TabContext.send_task hash tab contents rulesContent
            sessionSummary backend task user_message strict_mode
            st).1.assistant_message
        then
        [{ role := "assistant",
           content := (TabContext.send_task hash tab contents rulesContent
             sessionSummary backend task user_message strict_mode
             st).1.assistant_message,
           full_response := some (TabContext.send_task hash tab contents
             rulesContent sessionSummary backend task user_message strict_mode
             st).1.raw_response,
           prompt_tokens := (TabContext.send_task hash tab contents
             rulesContent sessionSummary backend task user_message strict_mode
             st).1.prompt_tokens,
           completion_tokens := (TabContext.send_task hash tab contents
             rulesContent sessionSummary backend task user_message strict_mode
             st).1.completion_tokens,
           total_tokens := (TabContext.send_task hash tab contents
             rulesContent sessionSummary backend task user_message strict_mode
             st).1.total_tokens }]
       else []) := by
  have hb := TabContext.build_request_mc hash tab contents rulesContent
    sessionSummary task user_message strict_mode false st
  simp only [TabContext.send_task]
  split_ifs with hum hc hc <;>
    simp [hb.1, hb.2, List.append_assoc]

/-- A backend used by the C4 counterexample: succeeds with a fixed message
and seven tokens. -/
def c4Backend : LLMRequest → LLMResponse := fun _ =>
  { success := true, assistant_message := PyVal.str "hello", total_tokens := 7 }

/-- C4 counterexample: a successful send that includes no artifact (nothing
is required to change) leaves the first-interaction flag true, not false as
claimed. -/
theorem C4_counterexample :
    (TabContext.send_task id .text_json {} Option.none "" c4Backend
      .ad_hoc_chat Option.none false {}).1.success = true ∧
    (TabContext.send_task id .text_json {} Option.none "" c4Backend
      .ad_hoc_chat Option.none false {}).2.first_interaction = true := by
  exact ⟨by decide, by decide⟩

namespace TabContext

/-- The inclusion condition as the claim states it, relative to the state at
the start of the build: required, non-empty, and force / first-interaction /
no stored checksum / changed hash. -/
def claimInclude (hash : String → String) (contents : ArtifactContents)
    (required : List String) (force : Bool) (st : TabState)
    (name : String) : Bool :=
  decide (name ∈ required) &&
  truthyStrOpt (getArtifactContent contents name) &&
  (force || st.first_interaction ||
    decide (getChecksum st name = Option.none) ||
    decide (getChecksum st name ≠
      some (hash ((getArtifactContent contents name).getD ""))))

/-- One artifact check, written as a conditional update. -/
theorem condStep_eq (hash : String → String) (contents : ArtifactContents)
    (force : Bool) (required : List String) (name : String)
    (ctx : ArtifactContents) (s : TabState) :
    condArtifactStep hash contents force required name (ctx, s) =
      if (decide (name ∈ required) &&
          truthyStrOpt (getArtifactContent contents name) &&
          should_send_artifact hash contents s name force) = true
      then (setCtx ctx name ((getArtifactContent contents name).getD ""),
            mark_artifact_sent hash s name
              ((getArtifactContent contents name).getD ""))
      else (ctx, s) := by
  rw [condArtifactStep]
  by_cases h1 : name ∈ required
  · rw [if_pos h1]
    cases hgc : getArtifactContent contents name with
    | none => simp [hgc, truthyStrOpt]
    | some c =>
      simp only [hgc]
      by_cases h2 : c = ""
      · subst h2
        simp [truthyStrOpt]
      · by_cases h3 : should_send_artifact hash contents s name force = true
        · simp [truthyStrOpt, h1, h2, h3]
        · simp [truthyStrOpt, h1, h2, h3]
  · simp [h1]

/-- The step condition, evaluated in an intermediate state whose checksum
for `name` agrees with the start state and whose first-interaction flag was
only ever cleared by an earlier inclusion on a genuine first interaction,
equals the claim-side condition over the start state. -/
theorem b_eq_claim (hash : String → String) (contents : ArtifactContents)
    (required : List String) (force : Bool) (st : TabState) (name : String)
    (s : TabState) (hchk : getChecksum s name = getChecksum st name)
    (hfi : s.first_interaction = st.first_interaction ∨
      (st.first_interaction = true ∧ getChecksum st name = Option.none)) :
    (decide (name ∈ required) &&
     truthyStrOpt (getArtifactContent contents name) &&
     should_send_artifact hash contents s name force) =
    claimInclude hash contents required force st name := by
  rw [claimInclude]
  cases hgc : getArtifactContent contents name with
  | none => simp [hgc, truthyStrOpt]
  | some c =>
    by_cases hc : c = ""
    · subst hc
      simp [hgc, truthyStrOpt]
    · rw [should_send_artifact]
      by_cases hf : force = true
      · simp [hgc, hf, truthyStrOpt, hc]
      · have hf' : force = false := by revert hf; cases force <;> simp
        rcases hfi with hfi | ⟨hst, hchknone⟩
        · by_cases h1 : st.first_interaction = true
          · simp [hgc, hf', hfi, h1, truthyStrOpt, hc]
          · have h1' : st.first_interaction = false := by
              revert h1; cases st.first_interaction <;> simp
            simp only [hgc, hf', hfi, h1', truthyStrOpt, if_false,
              Bool.false_or, is_artifact_modified, hchk]
            cases hchks : getChecksum st name <;>
              simp [hchks, hc, is_artifact_modified, hchk]
        · by_cases hsf : s.first_interaction = true
          · simp [hgc, hf', hsf, hst, truthyStrOpt, hc]
          · have hsf' : s.first_interaction = false := by
              revert hsf; cases s.first_interaction <;> simp
            simp [hgc, hf', hsf', hst, hchknone, truthyStrOpt, hc,
              is_artifact_modified, hchk]

end TabContext

namespace TabContext

theorem mark_first (hash : String → String) (s : TabState) (n c : String) :
    (mark_artifact_sent hash s n c).first_interaction = false := rfl

theorem chk_json_mark_text (hash : String → String) (s : TabState) (c : String) :
    getChecksum (mark_artifact_sent hash s "procedure_text" c)
      "procedure_json" = getChecksum s "procedure_json" := by
  simp [mark_artifact_sent, setChecksum, getChecksum]

theorem chk_code_mark_text (hash : String → String) (s : TabState) (c : String) :
    getChecksum (mark_artifact_sent hash s "procedure_text" c) "test_code" =
      getChecksum s "test_code" := by
  simp [mark_artifact_sent, setChecksum, getChecksum]

theorem chk_code_mark_json (hash : String → String) (s : TabState) (c : String) :
    getChecksum (mark_artifact_sent hash s "procedure_json" c) "test_code" =
      getChecksum s "test_code" := by
  simp [mark_artifact_sent, setChecksum, getChecksum]

theorem claimInclude_truthy (hash : String → String)
    (contents : ArtifactContents) (required : List String) (force : Bool)
    (st : TabState) (name : String)
    (h : claimInclude hash contents required force st name = true) :
    truthyStrOpt (getArtifactContent contents name) = true := by
  rw [claimInclude, Bool.and_eq_true, Bool.and_eq_true] at h
  exact h.1.2

end TabContext

/-- C1 (corrected): conditional inclusion holds artifact-by-artifact with
checksum update on inclusion — provided the first-interaction flag is only
true when no checksums are stored (as after `reset_conversation`; after
`reset_backend` the flag is true with checksums kept, and an earlier
inclusion in the same build clears the flag mid-loop, so a later unchanged
artifact is skipped against the claim). -/
theorem C1_conditional_inclusion (hash : String → String)
    (contents : ArtifactContents) (required : List String) (force : Bool)
    (st : TabState)
    (hfirst : st.first_interaction = true →
      st.checksum_text = Option.none ∧ st.checksum_json = Option.none ∧
      st.checksum_code = Option.none) :
    ((TabContext.build_conditional_artifact_context hash contents required
        force st).1.procedure_text =
      if TabContext.claimInclude hash contents required force st
          "procedure_text" then contents.procedure_text else Option.none) ∧
    ((TabContext.build_conditional_artifact_context hash contents required
        force st).1.procedure_json =
      if TabContext.claimInclude hash contents required force st
          "procedure_json" then contents.procedure_json else Option.none) ∧
    ((TabContext.build_conditional_artifact_context hash contents required
        force st).1.test_code =
      if TabContext.claimInclude hash contents required force st
          "test_code" then contents.test_code else Option.none) ∧
    ((TabContext.build_conditional_artifact_context hash contents required
        force st).2.checksum_text =
      if TabContext.claimInclude hash contents required force st
          "procedure_text" then
        some (hash (contents.procedure_text.getD "")) else st.checksum_text) ∧
    ((TabContext.build_conditional_artifact_context hash contents required
        force st).2.checksum_json =
      if TabContext.claimInclude hash contents required force st
          "procedure_json" then
        some (hash (contents.procedure_json.getD "")) else st.checksum_json) ∧
    ((TabContext.build_conditional_artifact_context hash contents required
        force st).2.checksum_code =
      if TabContext.claimInclude hash contents required force st
          "test_code" then
        some (hash (contents.test_code.getD "")) else st.checksum_code) := by
  have hfiJ : ∀ c : String,
      (TabContext.mark_artifact_sent hash st "procedure_text"
        c).first_interaction = st.first_interaction ∨
      (st.first_interaction = true ∧
        TabContext.getChecksum st "procedure_json" = Option.none) := by
    intro c
    by_cases hstf : st.first_interaction = true
    · exact Or.inr ⟨hstf, by simp [TabContext.getChecksum, (hfirst hstf).2.1]⟩
    · have h0 : st.first_interaction = false := by
        revert hstf; cases st.first_interaction <;> simp
      exact Or.inl (by rw [TabContext.mark_first, h0])
  have hfiC : ∀ s : TabState, s.first_interaction = false →
      (s.first_interaction = st.first_interaction ∨
       (st.first_interaction = true ∧
        TabContext.getChecksum st "test_code" = Option.none)) := by
    intro s hs
    by_cases hstf : st.first_interaction = true
    · exact Or.inr ⟨hstf, by simp [TabContext.getChecksum, (hfirst hstf).2.2]⟩
    · have h0 : st.first_interaction = false := by
        revert hstf; cases st.first_interaction <;> simp
      exact Or.inl (by rw [hs, h0])
  rw [TabContext.build_conditional_artifact_context]
  have e1 := TabContext.condStep_eq hash contents force required
    "procedure_text" ({} : ArtifactContents) st
  rw [TabContext.b_eq_claim hash contents required force st "procedure_text"
    st rfl (Or.inl rfl)] at e1
  by_cases h1 : TabContext.claimInclude hash contents required force st
      "procedure_text" = true
  · rw [if_pos h1] at e1
    rw [e1]
    obtain ⟨c1, hc1⟩ : ∃ c, contents.procedure_text = some c := by
      have ht := TabContext.claimInclude_truthy hash contents required force
        st "procedure_text" h1
      rw [show TabContext.getArtifactContent contents "procedure_text" =
        contents.procedure_text from by simp [TabContext.getArtifactContent]]
        at ht
      cases hcc : contents.procedure_text with
      | none => rw [hcc] at ht; simp [truthyStrOpt] at ht
      | some c => exact ⟨c, rfl⟩
    have e2 := TabContext.condStep_eq hash contents force required
      "procedure_json"
      (TabContext.setCtx {} "procedure_text"
        ((TabContext.getArtifactContent contents "procedure_text").getD ""))
      (TabContext.mark_artifact_sent hash st "procedure_text"
        ((TabContext.getArtifactContent contents "procedure_text").getD ""))
    rw [TabContext.b_eq_claim hash contents required force st "procedure_json"
      _ (TabContext.chk_json_mark_text hash st _) (hfiJ _)] at e2
    by_cases h2 : TabContext.claimInclude hash contents required force st
        "procedure_json" = true
    · rw [if_pos h2] at e2
      rw [e2]
      obtain ⟨c2, hc2⟩ : ∃ c, contents.procedure_json = some c := by
        have ht := TabContext.claimInclude_truthy hash contents required force
          st "procedure_json" h2
        rw [show TabContext.getArtifactContent contents "procedure_json" =
          contents.procedure_json from by
            simp [TabContext.getArtifactContent]] at ht
        cases hcc : contents.procedure_json with
        | none => rw [hcc] at ht; simp [truthyStrOpt] at ht
        | some c => exact ⟨c, rfl⟩
      have e3 := TabContext.condStep_eq hash contents force required
        "test_code"
        (TabContext.setCtx
          (TabContext.setCtx {} "procedure_text"
            ((TabContext.getArtifactContent contents "procedure_text").getD ""))
          "procedure_json"
          ((TabContext.getArtifactContent contents "procedure_json").getD ""))
        (TabContext.mark_artifact_sent hash
          (TabContext.mark_artifact_sent hash st "procedure_text"
            ((TabContext.getArtifactContent contents "procedure_text").getD ""))
          "procedure_json"
          ((TabContext.getArtifactContent contents "procedure_json").getD ""))
      rw [TabContext.b_eq_claim hash contents required force st "test_code"
        _ (by rw [TabContext.chk_code_mark_json, TabContext.chk_code_mark_text])
        (hfiC _ (TabContext.mark_first hash _ _ _))] at e3
      by_cases h3 : TabContext.claimInclude hash contents required force st
          "test_code" = true
      · rw [if_pos h3] at e3
        rw [e3]
        obtain ⟨c3, hc3⟩ : ∃ c, contents.test_code = some c := by
          have ht := TabContext.claimInclude_truthy hash contents required
            force st "test_code" h3
          rw [show TabContext.getArtifactContent contents "test_code" =
            contents.test_code from by
              simp [TabContext.getArtifactContent]] at ht
          cases hcc : contents.test_code with
          | none => rw [hcc] at ht; simp [truthyStrOpt] at ht
          | some c => exact ⟨c, rfl⟩
        simp [TabContext.setCtx, TabContext.mark_artifact_sent,
          TabContext.setChecksum, TabContext.getArtifactContent, h1, h2, h3,
          hc1, hc2, hc3]
      · rw [if_neg h3] at e3
        rw [e3]
        simp [TabContext.setCtx, TabContext.mark_artifact_sent,
          TabContext.setChecksum, TabContext.getArtifactContent, h1, h2, h3,
          hc1, hc2]
    · rw [if_neg h2] at e2
      rw [e2]
      have e3 := TabContext.condStep_eq hash contents force required
        "test_code"
        (TabContext.setCtx {} "procedure_text"
          ((TabContext.getArtifactContent contents "procedure_text").getD ""))
        (TabContext.mark_artifact_sent hash st "procedure_text"
          ((TabContext.getArtifactContent contents "procedure_text").getD ""))
      rw [TabContext.b_eq_claim hash contents required force st "test_code"
        _ (TabContext.chk_code_mark_text hash st _)
        (hfiC _ (TabContext.mark_first hash _ _ _))] at e3
      by_cases h3 : TabContext.claimInclude hash contents required force st
          "test_code" = true
      · rw [if_pos h3] at e3
        rw [e3]
        obtain ⟨c3, hc3⟩ : ∃ c, contents.test_code = some c := by
          have ht := TabContext.claimInclude_truthy hash contents required
            force st "test_code" h3
          rw [show TabContext.getArtifactContent contents "test_code" =
            contents.test_code from by
              simp [TabContext.getArtifactContent]] at ht
          cases hcc : contents.test_code with
          | none => rw [hcc] at ht; simp [truthyStrOpt] at ht
          | some c => exact ⟨c, rfl⟩
        simp [TabContext.setCtx, TabContext.mark_artifact_sent,
          TabContext.setChecksum, TabContext.getArtifactContent, h1, h2, h3,
          hc1, hc3]
      · rw [if_neg h3] at e3
        rw [e3]
        simp [TabContext.setCtx, TabContext.mark_artifact_sent,
          TabContext.setChecksum, TabContext.getArtifactContent, h1, h2, h3,
          hc1]
  · rw [if_neg h1] at e1
    rw [e1]
    have e2 := TabContext.condStep_eq hash contents force required
      "procedure_json" ({} : ArtifactContents) st
    rw [TabContext.b_eq_claim hash contents required force st "procedure_json"
      st rfl (Or.inl rfl)] at e2
    by_cases h2 : TabContext.claimInclude hash contents required force st
        "procedure_json" = true
    · rw [if_pos h2] at e2
      rw [e2]
      obtain ⟨c2, hc2⟩ : ∃ c, contents.procedure_json = some c := by
        have ht := TabContext.claimInclude_truthy hash contents required force
          st "procedure_json" h2
        rw [show TabContext.getArtifactContent contents "procedure_json" =
          contents.procedure_json from by
            simp [TabContext.getArtifactContent]] at ht
        cases hcc : contents.procedure_json with
        | none => rw [hcc] at ht; simp [truthyStrOpt] at ht
        | some c => exact ⟨c, rfl⟩
      have e3 := TabContext.condStep_eq hash contents force required
        "test_code"
        (TabContext.setCtx {} "procedure_json"
          ((TabContext.getArtifactContent contents "procedure_json").getD ""))
        (TabContext.mark_artifact_sent hash st "procedure_json"
          ((TabContext.getArtifactContent contents "procedure_json").getD ""))
      rw [TabContext.b_eq_claim hash contents required force st "test_code"
        _ (TabContext.chk_code_mark_json hash st _)
        (hfiC _ (TabContext.mark_first hash _ _ _))] at e3
      by_cases h3 : TabContext.claimInclude hash contents required force st
          "test_code" = true
      · rw [if_pos h3] at e3
        rw [e3]
        obtain ⟨c3, hc3⟩ : ∃ c, contents.test_code = some c := by
          have ht := TabContext.claimInclude_truthy hash contents required
            force st "test_code" h3
          rw [show TabContext.getArtifactContent contents "test_code" =
            contents.test_code from by
              simp [TabContext.getArtifactContent]] at ht
          cases hcc : contents.test_code with
          | none => rw [hcc] at ht; simp [truthyStrOpt] at ht
          | some c => exact ⟨c, rfl⟩
        simp [TabContext.setCtx, TabContext.mark_artifact_sent,
          TabContext.setChecksum, TabContext.getArtifactContent, h1, h2, h3,
          hc2, hc3]
      · rw [if_neg h3] at e3
        rw [e3]
        simp [TabContext.setCtx, TabContext.mark_artifact_sent,
          TabContext.setChecksum, TabContext.getArtifactContent, h1, h2, h3,
          hc2]
    · rw [if_neg h2] at e2
      rw [e2]
      have e3 := TabContext.condStep_eq hash contents force required
        "test_code" ({} : ArtifactContents) st
      rw [TabContext.b_eq_claim hash contents required force st "test_code"
        st rfl (Or.inl rfl)] at e3
      by_cases h3 : TabContext.claimInclude hash contents required force st
          "test_code" = true
      · rw [if_pos h3] at e3
        rw [e3]
        obtain ⟨c3, hc3⟩ : ∃ c, contents.test_code = some c := by
          have ht := TabContext.claimInclude_truthy hash contents required
            force st "test_code" h3
          rw [show TabContext.getArtifactContent contents "test_code" =
            contents.test_code from by
              simp [TabContext.getArtifactContent]] at ht
          cases hcc : contents.test_code with
          | none => rw [hcc] at ht; simp [truthyStrOpt] at ht
          | some c => exact ⟨c, rfl⟩
        simp [TabContext.setCtx, TabContext.mark_artifact_sent,
          TabContext.setChecksum, TabContext.getArtifactContent, h1, h2, h3, hc3]
      · rw [if_neg h3] at e3
        rw [e3]
        simp [TabContext.setCtx, TabContext.mark_artifact_sent,
          TabContext.setChecksum, TabContext.getArtifactContent, h1, h2, h3]

/-- C1 counterexample: with the first-interaction flag true but a matching
checksum stored for `test_code` (the state `reset_backend` leaves), building
with both artifacts required includes `procedure_json` — clearing the flag
mid-loop — and then skips `test_code`, although the claim requires inclusion
whenever the first-interaction flag is true and the content is non-empty. -/
theorem C1_counterexample :
    (TabContext.build_conditional_artifact_context id
      { procedure_json := some "jsoncontent", test_code := some "codecontent" }
      ["procedure_json", "test_code"] false
      { first_interaction := true,
        checksum_code := some "codecontent" }).1.test_code = Option.none ∧
    ({ first_interaction := true, checksum_code := some "codecontent" } :
      TabState).first_interaction = true ∧
    truthyStrOpt (some "codecontent") = true := by
  exact ⟨by decide, rfl, by decide⟩

/-- C1 witness: the amended theorem applied at a genuine first interaction
with one required artifact, which is therefore included. -/
theorem C1_witness :
    (TabContext.build_conditional_artifact_context id
      ({ procedure_text := some "T" } : ArtifactContents)
      ["procedure_text"] false {}).1.procedure_text =
      (if TabContext.claimInclude id { procedure_text := some "T" }
          ["procedure_text"] false {} "procedure_text" then
        some "T" else Option.none) :=
  (C1_conditional_inclusion id { procedure_text := some "T" }
    ["procedure_text"] false {} (by decide)).1
